import Mathlib

/-!
Verification of the JSONL event visualizer (`visualize.py`).

The program reads a line-delimited JSON stream and renders each event as a
sequence of styled terminal print calls.  We shallowly embed the program:

* JSON values (as produced by `json.loads`) are modelled by `Viz.JVal`;
  numbers are modelled as integers (the claims under study only involve
  integral timestamps and string payloads).
* Each `console.print(text, style=..., end=...)` call is modelled as one
  `Viz.Seg` (text, style, line-end marker); a rendering is a `List Seg`.
* Python operations that can raise (`.get` on a non-dict, `-` on
  non-numbers, slicing a non-sliceable, `.replace`/`.split` on a non-str)
  are modelled in the `Except Viz.PyErr` monad, mirroring the exact places
  the source can raise.
-/

namespace Viz

/-- A rich `Style`: the subset of attributes the program uses
(bold / dim flags and an optional color name). `colors[...]` values and the
`+` combination of rich styles (right operand overrides the color) are
modelled below. -/
structure Style where
  bold : Bool := false
  dim : Bool := false
  color : Option String := none
deriving DecidableEq

/-- Rich style combination `a + b`: flags accumulate, the right color wins
when present. -/
def Style.add (a b : Style) : Style :=
  { bold := a.bold || b.bold
    dim := a.dim || b.dim
    color := match b.color with | some c => some c | none => a.color }

def styReset : Style := {}
def styBright : Style := { bold := true }
def styDim : Style := { dim := true }
def styRed : Style := { color := some ("red") }
def styGreen : Style := { color := some ("green") }
def styYellow : Style := { color := some ("yellow") }
def styBlue : Style := { color := some ("blue") }
def styMagenta : Style := { color := some ("magenta") }
def styCyan : Style := { color := some ("cyan") }

/-- One `console.print` call: the printed text, its style, and the `end`
argument (`"\n"` by default, `""` or `" "` when overridden). -/
structure Seg where
  text : String
  style : Style
  lineEnd : String
deriving DecidableEq

/-- The text stream produced by a sequence of print calls (styles erased). -/
def renderText (segs : List Seg) : String :=
  segs.foldr (fun g acc => g.text ++ g.lineEnd ++ acc) ("")

/-- Number of consecutive line breaks at the very end of the stream.
A stream that ends with exactly one blank line has `nlRun = 2`
(the break terminating the last visible line, plus one blank line). -/
def nlRun (s : String) : Nat :=
  (s.data.reverse.takeWhile (fun c => c == '\n')).length

/-- A JSON value as decoded by `json.loads`.  Objects are association
lists (keys are unique in decoded JSON); numbers are modelled as integers. -/
inductive JVal where
  | null
  | bool (b : Bool)
  | int (n : Int)
  | str (s : String)
  | arr (elems : List JVal)
  | obj (fields : List (String × JVal))

/-- Python truthiness of a decoded JSON value. -/
def JVal.truthy : JVal → Bool
  | .null => false
  | .bool b => b
  | .int n => n != 0
  | .str s => s != ""
  | .arr xs => !xs.isEmpty
  | .obj fs => !fs.isEmpty

/-- Python errors the source can raise while rendering. -/
inductive PyErr where
  | attributeError
  | typeError
  | keyError
deriving DecidableEq

/-- `v.get(key, default)`: dictionary lookup with default; on a non-dict
value, `.get` does not exist and Python raises `AttributeError`. -/
def JVal.get (v : JVal) (key : String) (default : JVal) : Except PyErr JVal :=
  match v with
  | .obj fs => .ok ((fs.lookup key).getD default)
  | _ => .error .attributeError

/-- `v.isStr s`: Python `v == s` for a string literal `s`; comparison of a
non-string against a string is `False`, never an error. -/
def JVal.isStr (v : JVal) (s : String) : Bool :=
  match v with
  | .str t => t == s
  | _ => false

/-- Python `key in container`: key membership for dicts, substring test for
strings, element membership for lists; `TypeError` otherwise. -/
def pyContains (container : JVal) (key : String) : Except PyErr Bool :=
  match container with
  | .obj fs => .ok (fs.lookup key).isSome
  | .str s => .ok (decide (key.data <:+: s.data))
  | .arr xs => .ok (xs.any (fun x => x.isStr key))
  | _ => .error .typeError

/-- Python `container[key]` for a string key: dict indexing; `TypeError`
on any non-dict (string/list indices must be integers; None/int are not
subscriptable by a string). -/
def pyIndex (container : JVal) (key : String) : Except PyErr JVal :=
  match container with
  | .obj fs =>
    match fs.lookup key with
    | some v => .ok v
    | none => .error .keyError
  | _ => .error .typeError

/-- View a value as a Python number (`bool` is an `int` in Python). -/
def pyToNum : JVal → Option Int
  | .int n => some n
  | .bool b => some (if b then 1 else 0)
  | _ => none

/-- Python `a - b` on decoded values: defined on numbers (and bools),
`TypeError` otherwise. -/
def pySub (a b : JVal) : Except PyErr Int :=
  match pyToNum a, pyToNum b with
  | some x, some y => .ok (x - y)
  | _, _ => .error .typeError

/-- Python `v[:8]`: prefix of a string or list; `TypeError` on values that
do not support slicing (None, bool, int, dict). -/
def pySlice8 : JVal → Except PyErr JVal
  | .str s => .ok (.str (String.mk (s.data.take 8)))
  | .arr xs => .ok (.arr (xs.take 8))
  | _ => .error .typeError

mutual

/-- Python `repr` of a decoded JSON value (simple strings assumed: the
single-quote-and-escape refinements of `repr` for exotic strings are not
needed by the claims). `\x7b`/`\x7d` are literal braces, `\x27` a quote. -/
def pyRepr : JVal → String
  | .null => "None"
  | .bool true => "True"
  | .bool false => "False"
  | .int n => toString n
  | .str s => "\x27" ++ s ++ "\x27"
  | .arr xs => "[" ++ String.intercalate (", ") (pyReprElems xs) ++ "]"
  | .obj fs => "\x7b" ++ String.intercalate (", ") (pyReprFields fs) ++ "\x7d"

def pyReprElems : List JVal → List String
  | [] => []
  | x :: xs => pyRepr x :: pyReprElems xs

def pyReprFields : List (String × JVal) → List String
  | [] => []
  | p :: ps => ("\x27" ++ p.1 ++ "\x27: " ++ pyRepr p.2) :: pyReprFields ps

end

/-- Python `str`: identity on strings, `repr`-like otherwise. -/
def pyStr : JVal → String
  | .str s => s
  | v => pyRepr v

/-- Python `s.strip()`: drop leading and trailing whitespace. -/
def pyStrip (s : String) : String :=
  String.mk (((s.data.dropWhile Char.isWhitespace).reverse.dropWhile
    Char.isWhitespace).reverse)

/-- Python `v.replace("_", " ")` (the one replacement the source performs):
only strings have `.replace`; `AttributeError` otherwise. -/
def pyReplaceUS (v : JVal) : Except PyErr String :=
  match v with
  | .str s => .ok (String.mk (s.data.map (fun c => if c == '_' then ' ' else c)))
  | _ => .error .attributeError

/-- Worker for Python `s.split("\n")`: cut at every line break, keeping
empty pieces (the accumulator holds the current piece reversed). -/
def splitNLAux : List Char → List Char → List String
  | [], acc => [String.mk acc.reverse]
  | c :: cs, acc =>
    if c == '\n' then String.mk acc.reverse :: splitNLAux cs []
    else splitNLAux cs (c :: acc)

/-- Python `s.split("\n")` on a string. -/
def pySplitLines (s : String) : List String := splitNLAux s.data []

/-- Python `v.split("\n")`: only strings have `.split`;
`AttributeError` otherwise. -/
def pySplitNL (v : JVal) : Except PyErr (List String) :=
  match v with
  | .str s => .ok (pySplitLines s)
  | _ => .error .attributeError

/-- Character-level worker for Python `str.title`. -/
def pyTitleAux : List Char → Bool → List Char
  | [], _ => []
  | c :: cs, prevAlpha =>
    if c.isAlpha then
      (if prevAlpha then c.toLower else c.toUpper) :: pyTitleAux cs true
    else
      c :: pyTitleAux cs false

/-- Python `s.title()`: first letter of each alphabetic run uppercased,
the rest lowercased (ASCII-cased behaviour, which covers the event kinds). -/
def pyTitle (s : String) : String :=
  String.mk (pyTitleAux s.data false)

/-- `safe_str(value, max_len)` from the source: stringify any value, and
when a limit is given and exceeded cut to the first `max_len` characters
and append the fixed ellipsis marker. -/
def safe_str (value : JVal) (max_len : Option Nat) : String :=
  let result := pyStr value
  match max_len with
  | some n =>
    if n < result.length then String.mk (result.data.take n) ++ "..." else result
  | none => result

/-- `get_event_style`: icon and style per event kind, with the fallback
entry for unrecognized kinds (a non-string `type` also falls through to
the default, as a dict lookup with a non-matching key). -/
def get_event_style (event_type : JVal) : String × Style :=
  match event_type with
  | .str s =>
    match s with
    | "tool_use" => ("🔧", styCyan)
    | "step_start" => ("▶️", styBlue)
    | "step_finish" => ("✅", styGreen)
    | "text" => ("💬", styReset)
    | "error" => ("❌", styRed)
    | "thinking" => ("🤔", styMagenta)
    | "session_start" => ("🚀", Style.add styBright styGreen)
    | "session_end" => ("🏁", Style.add styBright styBlue)
    | _ => ("⏺", styDim)
  | _ => ("⏺", styDim)

/-- The `console.print("  ⎿  ", end="")` indentation marker. -/
def indentSeg : Seg := ⟨"  ⎿  ", styReset, ""⟩

/-- A bare `console.print()`: terminates the current line. -/
def nlSeg : Seg := ⟨"", styReset, "\n"⟩

/-- The fixed priority order of `tool_use` input-argument keys. -/
def priorityKeys : List String :=
  ["path", "file_path", "command", "query", "pattern", "url"]

/-- The `for key in [...]: if key in tool_input: ...; break` scan of the
`tool_use` branch: at most one argument line, for the first priority key
contained in `tool_input`. -/
def toolArgScan (tool_input : JVal) : List String → Except PyErr (List Seg)
  | [] => .ok []
  | k :: ks => do
    if (← pyContains tool_input k) then
      let v ← pyIndex tool_input k
      return [indentSeg, ⟨k ++ ": ", styDim, ""⟩,
        ⟨safe_str v (some 80), styGreen, "\n"⟩]
    else
      toolArgScan tool_input ks

/-- Body of the `tool_use` branch (everything the branch prints after the
common icon-and-label segments). -/
def toolBody (part : JVal) : Except PyErr (List Seg) := do
  let tool_name ← JVal.get part ("tool") (.str ("unknown"))
  let tool_state ← JVal.get part ("state") (.obj [])
  let tool_title ← JVal.get tool_state ("title") (.str (""))
  let tool_input ← JVal.get tool_state ("input") (.obj [])
  let tool_status ← JVal.get tool_state ("status") (.str (""))
  let statusSegs :=
    if tool_status.truthy then
      [⟨" [" ++ pyStr tool_status ++ "]",
        (if tool_status.isStr ("completed") then styGreen else styYellow), ""⟩]
    else []
  let titleSegs :=
    if tool_title.truthy then
      [indentSeg, ⟨"Title: " ++ pyStr tool_title, styDim, "\n"⟩]
    else []
  let argSegs ←
    if tool_input.truthy then toolArgScan tool_input priorityKeys
    else Except.ok []
  return [⟨" (" ++ pyStr tool_name ++ ")", styCyan, ""⟩] ++ statusSegs ++
    [nlSeg] ++ titleSegs ++ argSegs

/-- Body of the `step_start` branch. -/
def stepStartBody (part : JVal) : Except PyErr (List Seg) := do
  let step_type ← JVal.get part ("type") (.str (""))
  if step_type.truthy then
    return [⟨" - " ++ pyStr step_type, styBlue, "\n"⟩]
  else
    return [nlSeg]

/-- Body of the `step_finish` branch: optional step-type suffix, then the
optional duration suffix computed from `part.time` (note the source guards
the subtraction by the truthiness of both timestamps, and prints the
duration only when it is itself truthy). -/
def stepFinishBody (part : JVal) : Except PyErr (List Seg) := do
  let step_type ← JVal.get part ("type") (.str (""))
  let time_info ← JVal.get part ("time") (.obj [])
  let start_time ← JVal.get time_info ("start") .null
  let end_time ← JVal.get time_info ("end") .null
  let duration ←
    if start_time.truthy && end_time.truthy then
      Except.map some (pySub end_time start_time)
    else
      Except.ok none
  let typeSegs :=
    if step_type.truthy then [⟨" - " ++ pyStr step_type, styGreen, ""⟩] else []
  let durSegs :=
    match duration with
    | some d => if d != 0 then [⟨" (" ++ toString d ++ "ms)", styDim, ""⟩] else []
    | none => []
  return typeSegs ++ durSegs ++ [nlSeg]

/-- The shown lines of a `text` event: at most the first 5 lines; a line is
printed if non-blank, or unconditionally at index 0; index 0 uses the
normal style, later lines the muted style. -/
def textShown (lines : List String) : List Seg :=
  ((lines.take (min 5 lines.length)).enum).flatMap fun p =>
    if pyStrip p.2 != "" || p.1 == 0 then
      [indentSeg, ⟨p.2, (if p.1 == 0 then styReset else styDim), "\n"⟩]
    else []

/-- The trailing `... (N more lines)` summary of a `text` event. -/
def textSummary (lines : List String) : List Seg :=
  if lines.length > min 5 lines.length then
    [indentSeg,
      ⟨"... (" ++ toString (lines.length - min 5 lines.length) ++ " more lines)",
        styDim, "\n"⟩]
  else []

/-- Body of the `text` branch for non-empty textual content. -/
def textBody (lines : List String) : List Seg :=
  [nlSeg] ++ textShown lines ++ textSummary lines

/-- Body of the `text` branch: split non-empty content on line breaks
(`.split` on a non-string raises), or just end the header line. -/
def textBranch (part : JVal) : Except PyErr (List Seg) := do
  let text_content ← JVal.get part ("text") (.str (""))
  if text_content.truthy then do
    let lines ← pySplitNL text_content
    return textBody lines
  else
    return [nlSeg]

/-- The shown lines of a `thinking` event: at most the first 3 lines, each
required non-blank (the index plays no role), in the thinking style. -/
def thinkingShown (lines : List String) : List Seg :=
  ((lines.take (min 3 lines.length)).enum).flatMap fun p =>
    if pyStrip p.2 != "" then
      [indentSeg, ⟨p.2, styMagenta, "\n"⟩]
    else []

/-- The trailing `... (N more lines)` summary of a `thinking` event. -/
def thinkingSummary (lines : List String) : List Seg :=
  if lines.length > min 3 lines.length then
    [indentSeg,
      ⟨"... (" ++ toString (lines.length - min 3 lines.length) ++ " more lines)",
        styDim, "\n"⟩]
  else []

/-- Body of the `thinking` branch for non-empty content. -/
def thinkingBody (lines : List String) : List Seg :=
  [nlSeg] ++ thinkingShown lines ++ thinkingSummary lines

/-- Body of the `thinking` branch. -/
def thinkingBranch (part : JVal) : Except PyErr (List Seg) := do
  let thinking_content ← JVal.get part ("text") (.str (""))
  if thinking_content.truthy then do
    let lines ← pySplitNL thinking_content
    return thinkingBody lines
  else
    return [nlSeg]

/-- Body of the `error` branch: `<name>: ` in bold red, then the message
(`error.data.message`, defaulting to the stringified error payload)
truncated to 200 characters. -/
def errorBody (error_data : JVal) : Except PyErr (List Seg) := do
  let error_name ← JVal.get error_data ("name") (.str ("Error"))
  let error_data_field ← JVal.get error_data ("data") (.obj [])
  let error_msg ← JVal.get error_data_field ("message") (.str (pyStr error_data))
  return [nlSeg, indentSeg,
    ⟨pyStr error_name ++ ": ", Style.add styRed styBright, ""⟩,
    ⟨safe_str error_msg (some 200), styRed, "\n"⟩]

/-- Body of the unknown-kind fallback branch: one muted summary line of the
non-empty payload (`part`, else `error`), truncated to 100 characters, or
nothing beyond the header. -/
def unknownBody (part error_data : JVal) : List Seg :=
  let data_to_show := if part.truthy then part else error_data
  if data_to_show.truthy then
    [nlSeg, indentSeg, ⟨safe_str data_to_show (some 100), styDim, "\n"⟩]
  else
    [nlSeg]

/-- Dispatch over the event kind: the `if/elif` chain of
`format_opencode_event` after the header prints. -/
def bodySegs (event_type part error_data : JVal) : Except PyErr (List Seg) :=
  if event_type.isStr ("tool_use") then toolBody part
  else if event_type.isStr ("step_start") then stepStartBody part
  else if event_type.isStr ("step_finish") then stepFinishBody part
  else if event_type.isStr ("text") then textBranch part
  else if event_type.isStr ("thinking") then thinkingBranch part
  else if event_type.isStr ("error") then errorBody error_data
  else if event_type.isStr ("session_start") || event_type.isStr ("session_end") then
    Except.ok [nlSeg]
  else
    Except.ok (unknownBody part error_data)

/-- The debug-mode segments: `[<timestamp>]` and
`(session: <first 8 chars>...)`, joined by a space and printed muted with a
trailing space, when any is present. -/
def debugSegs (timestamp session_id : JVal) : Except PyErr (List Seg) := do
  let tsPart :=
    if timestamp.truthy then ["[" ++ pyStr timestamp ++ "]"] else []
  let sessPart ←
    if session_id.truthy then do
      let sl ← pySlice8 session_id
      Except.ok ["(session: " ++ pyStr sl ++ "...)"]
    else
      Except.ok ([] : List String)
  let info := tsPart ++ sessPart
  if info.isEmpty then
    return []
  else
    return [⟨String.intercalate (" ") info, styDim, " "⟩]

/-- `format_opencode_event(event, debug)`: the full rendering of one event
as the sequence of print calls the source makes, or the Python error it
raises.  The final `[nlSeg]` is the mandatory trailing blank line. -/
def format_opencode_event (event : JVal) (debug : Bool) : Except PyErr (List Seg) := do
  let event_type ← JVal.get event ("type") (.str ("unknown"))
  let timestamp ← JVal.get event ("timestamp") (.str (""))
  let session_id ← JVal.get event ("sessionID") (.str (""))
  let part ← JVal.get event ("part") (.obj [])
  let error_data ← JVal.get event ("error") (.obj [])
  let icon := (get_event_style event_type).1
  let style := (get_event_style event_type).2
  let dbg ← if debug then debugSegs timestamp session_id else Except.ok []
  let label ← pyReplaceUS event_type
  let body ← bodySegs event_type part error_data
  return dbg ++ [⟨icon ++ " ", styReset, ""⟩, ⟨pyTitle label, style, ""⟩] ++
    body ++ [nlSeg]

/-- The `Parse Error` block printed when a line fails to decode. -/
def parseErrorSegs (line : String) : List Seg :=
  [⟨"⏺ ", styReset, ""⟩, ⟨"Parse Error", styRed, "\n"⟩,
    ⟨"  ⎿  " ++ String.mk (line.data.take 80) ++ "...", styDim, "\n"⟩, nlSeg]

/-- `process_stream`, parameterized by the external JSON decoder
(`json.loads`, returning `none` exactly when it raises `JSONDecodeError`):
strip each line, skip empties, render decoded events, report decode
failures inline, and propagate any rendering error (which the source lets
escape to the process-level handler). -/
def process_stream (decode : String → Option JVal) (debug : Bool) :
    List String → Except PyErr (List Seg)
  | [] => .ok []
  | rawLine :: rest => do
    let line := pyStrip rawLine
    if line = "" then
      process_stream decode debug rest
    else
      match decode line with
      | some event => do
        let segs ← format_opencode_event event debug
        let restSegs ← process_stream decode debug rest
        return segs ++ restSegs
      | none => do
        let restSegs ← process_stream decode debug rest
        return parseErrorSegs line ++ restSegs

/-- A print-call list whose last call terminates its line (its `end`
argument is the default line break). -/
def EndsNL (segs : List Seg) : Prop :=
  ∃ pre g, segs = pre ++ [g] ∧ g.lineEnd = "\n"

/-- A branch body whose last call terminates its line, and which, whenever
that last call prints an empty text, either starts the body (the line being
closed is the header line) or is directly preceded on its line by a call
printing a non-empty text with `end=""` (an indentation marker or a
`<key>: ` / `<name>: ` label). -/
def GoodBody (body : List Seg) : Prop :=
  ∃ mid last, body = mid ++ [last] ∧ last.lineEnd = "\n" ∧
    (last.text = "" →
      mid = [] ∨ ∃ mid2 pre, mid = mid2 ++ [pre] ∧
        pre.lineEnd = "" ∧ pre.text ≠ "")

/-- A run of same-line print calls that is empty or ends with a call
printing a non-empty text and no line break (used for the optional
suffix segments preceding a branch's line-terminating print). -/
def TailPre (M : List Seg) : Prop :=
  M = [] ∨ ∃ A pre, M = A ++ [pre] ∧ pre.lineEnd = "" ∧ pre.text ≠ ""

/-- A `tool_use` event whose `part` is a string instead of a mapping:
`part.get("tool", ...)` raises `AttributeError` on it. -/
def c1Event : JVal := .obj [("type", .str ("tool_use")), ("part", .str ("x"))]

/-- A well-formed `tool_use` event with the given `part.state.input`. -/
def toolEvent (input : JVal) : JVal :=
  .obj [("type", .str ("tool_use")),
    ("part", .obj [("state", .obj [("input", input)])])]

/-- Header print calls of `toolEvent` (icon, label, tool name, line end). -/
def toolHeadSegs : List Seg :=
  [⟨"🔧 ", styReset, ""⟩, ⟨"Tool Use", styCyan, ""⟩,
    ⟨" (unknown)", styCyan, ""⟩, nlSeg]

/-- An input payload whose key order puts `url` before `file_path`. -/
def c2Input : List (String × JVal) :=
  [("url", .str ("https://x")), ("file_path", .str ("/a/b.txt"))]

/-- A `step_finish` event with the given step type and timestamps. -/
def mkStepFinishEvent (st : JVal) (a b : Int) : JVal :=
  .obj [("type", .str ("step_finish")),
    ("part", .obj [("type", st),
      ("time", .obj [("start", .int a), ("end", .int b)])])]

/-- Header print calls of a `step_finish` event. -/
def stepFinishHead : List Seg :=
  [⟨"✅ ", styReset, ""⟩, ⟨"Step Finish", styGreen, ""⟩]

/-- Rendering of `step_finish` with `start=0, end=500, type="build"`:
no duration suffix is printed. -/
def c5ZeroSegs : List Seg :=
  stepFinishHead ++ [⟨" - build", styGreen, ""⟩, nlSeg, nlSeg]

/-- A `text` event with the given content. -/
def mkTextEvent (s : String) : JVal :=
  .obj [("type", .str ("text")), ("part", .obj [("text", .str s)])]

/-- A `thinking` event with the given content. -/
def mkThinkingEvent (s : String) : JVal :=
  .obj [("type", .str ("thinking")), ("part", .obj [("text", .str s)])]

/-- Seven lines, only two of which are non-blank. -/
def c6Text : String := "a\n\n\n\n\n\nb"

/-- Rendering of the `text` event over `c6Text`: one shown line and a
`... (2 more lines)` summary. -/
def c6Segs : List Seg :=
  [⟨"💬 ", styReset, ""⟩, ⟨"Text", styReset, ""⟩, nlSeg,
    indentSeg, ⟨"a", styReset, "\n"⟩,
    indentSeg, ⟨"... (2 more lines)", styDim, "\n"⟩, nlSeg]

/-- The spec scenario `{"type":"error","error":{"name":"Timeout"}}`. -/
def c7Event : JVal :=
  .obj [("type", .str ("error")), ("error", .obj [("name", .str ("Timeout"))])]

/-- Its rendering: `Timeout: ` then the stringified error object. -/
def c7Segs : List Seg :=
  [⟨"❌ ", styReset, ""⟩, ⟨"Error", styRed, ""⟩, nlSeg, indentSeg,
    ⟨"Timeout: ", Style.add styRed styBright, ""⟩,
    ⟨"\x7b\x27name\x27: \x27Timeout\x27\x7d", styRed, "\n"⟩, nlSeg]

/-- An `error` event whose message itself ends with a line break. -/
def c9BadEvent : JVal :=
  .obj [("type", .str ("error")),
    ("error", .obj [("data", .obj [("message", .str ("x\n"))])])]

/-- An event with an unrecognized `type` and empty payloads. -/
def c9UnknownEvent : JVal := .obj [("type", .str ("custom_evt"))]

/-- Its rendering: header line and the trailing blank line only. -/
def c9UnknownSegs : List Seg :=
  [⟨"⏺ ", styReset, ""⟩, ⟨"Custom Evt", styDim, ""⟩, nlSeg, nlSeg]

/-- An event object with no top-level `type` key. -/
def c10Fields : List (String × JVal) := [("part", .obj [("k", .int 3)])]

theorem except_bind_ok {α β : Type} (a : α) (f : α → Except PyErr β) :
    (Except.ok a >>= f) = f a := rfl

theorem except_bind_error {α β : Type} (e : PyErr) (f : α → Except PyErr β) :
    ((Except.error e : Except PyErr α) >>= f) = Except.error e := rfl

theorem string_data_append (a b : String) : (a ++ b).data = a.data ++ b.data := rfl

theorem string_eq_of_data {a b : String} (h : a.data = b.data) : a = b := by
  cases a
  cases b
  exact congrArg String.mk h

theorem string_length_append (a b : String) :
    (a ++ b).length = a.length + b.length := by
  change (a ++ b).data.length = a.data.length + b.data.length
  rw [string_data_append, List.length_append]

theorem string_length_mk (l : List Char) : (String.mk l).length = l.length := rfl

theorem renderText_cons (g : Seg) (segs : List Seg) :
    renderText (g :: segs) = g.text ++ g.lineEnd ++ renderText segs := rfl

theorem renderText_append (a b : List Seg) :
    renderText (a ++ b) = renderText a ++ renderText b := by
  induction a with
  | nil =>
    apply string_eq_of_data
    simp [renderText, string_data_append]
  | cons g gs ih =>
    apply string_eq_of_data
    simp only [List.cons_append, renderText_cons, ih, string_data_append,
      List.append_assoc]

theorem endsNL_nlSeg : EndsNL [nlSeg] := ⟨[], nlSeg, rfl, rfl⟩

theorem endsNL_single (g : Seg) (h : g.lineEnd = "\n") : EndsNL [g] :=
  ⟨[], g, rfl, h⟩

theorem EndsNL.append_left (a : List Seg) {b : List Seg} (h : EndsNL b) :
    EndsNL (a ++ b) := by
  obtain ⟨pre, g, rfl, hg⟩ := h
  exact ⟨a ++ pre, g, by simp, hg⟩

theorem EndsNL.append_opt {a b : List Seg} (ha : EndsNL a)
    (hb : b = [] ∨ EndsNL b) : EndsNL (a ++ b) := by
  rcases hb with rfl | hb
  · simpa using ha
  · exact hb.append_left a

theorem endsNL_flatMap {α : Type} (f : α → List Seg) (L : List α)
    (h : ∀ x, f x = [] ∨ EndsNL (f x)) :
    L.flatMap f = [] ∨ EndsNL (L.flatMap f) := by
  induction L with
  | nil => exact Or.inl rfl
  | cons x xs ih =>
    rw [List.flatMap_cons]
    rcases h x with hx | hx
    · rw [hx, List.nil_append]
      exact ih
    · rcases ih with hih | hih
      · rw [hih, List.append_nil]
        exact Or.inr hx
      · exact Or.inr (hih.append_left _)

theorem endsNL_renderText {segs : List Seg} (h : EndsNL segs) :
    ∃ t, (renderText segs).data = t ++ ['\n'] := by
  obtain ⟨pre, g, rfl, hg⟩ := h
  refine ⟨(renderText pre).data ++ g.text.data, ?_⟩
  rw [renderText_append]
  simp [renderText, hg, string_data_append, String.data]

theorem nlRun_ge_two {s : String} (h : ∃ t, s.data = t ++ ['\n', '\n']) :
    2 ≤ nlRun s := by
  obtain ⟨t, ht⟩ := h
  simp [nlRun, ht, List.takeWhile]

theorem except_pure {α : Type} (x : α) :
    (pure x : Except PyErr α) = Except.ok x := rfl

theorem endsNL_concat4 (A S T args : List Seg) (hT : T = [] ∨ EndsNL T)
    (hargs : args = [] ∨ EndsNL args) :
    EndsNL (A ++ S ++ [nlSeg] ++ T ++ args) :=
  ((EndsNL.append_left (A ++ S) endsNL_nlSeg).append_opt hT).append_opt hargs

theorem toolArgScan_opt (tool_input : JVal) (ks : List String) (args : List Seg)
    (h : toolArgScan tool_input ks = .ok args) : args = [] ∨ EndsNL args := by
  induction ks with
  | nil =>
    injection h with h
    exact Or.inl h.symm
  | cons k ks ih =>
    unfold toolArgScan at h
    cases hc : pyContains tool_input k with
    | error e => rw [hc, except_bind_error] at h; cases h
    | ok b =>
      rw [hc, except_bind_ok] at h
      cases b with
      | true =>
        rw [if_pos rfl] at h
        cases hv : pyIndex tool_input k with
        | error e => rw [hv, except_bind_error] at h; cases h
        | ok v =>
          rw [hv, except_bind_ok] at h
          injection h with h
          exact Or.inr (h ▸ ⟨[indentSeg, ⟨k ++ ": ", styDim, ""⟩], _, rfl, rfl⟩)
      | false =>
        rw [if_neg Bool.false_ne_true] at h
        exact ih h

theorem toolBody_endsNL (part : JVal) (body : List Seg)
    (h : toolBody part = .ok body) : EndsNL body := by
  unfold toolBody at h
  cases h1 : JVal.get part ("tool") (.str ("unknown")) with
  | error e => rw [h1, except_bind_error] at h; cases h
  | ok tool_name =>
  rw [h1, except_bind_ok] at h
  cases h2 : JVal.get part ("state") (.obj []) with
  | error e => rw [h2, except_bind_error] at h; cases h
  | ok tool_state =>
  rw [h2, except_bind_ok] at h
  cases h3 : JVal.get tool_state ("title") (.str ("")) with
  | error e => rw [h3, except_bind_error] at h; cases h
  | ok tool_title =>
  rw [h3, except_bind_ok] at h
  cases h4 : JVal.get tool_state ("input") (.obj []) with
  | error e => rw [h4, except_bind_error] at h; cases h
  | ok tool_input =>
  rw [h4, except_bind_ok] at h
  cases h5 : JVal.get tool_state ("status") (.str ("")) with
  | error e => rw [h5, except_bind_error] at h; cases h
  | ok tool_status =>
  rw [h5, except_bind_ok] at h
  have hT : (if tool_title.truthy then
      [indentSeg, ⟨"Title: " ++ pyStr tool_title, styDim, "\n"⟩] else []) = [] ∨
      EndsNL (if tool_title.truthy then
        [indentSeg, ⟨"Title: " ++ pyStr tool_title, styDim, "\n"⟩] else []) := by
    split
    · exact Or.inr ⟨[indentSeg], _, rfl, rfl⟩
    · exact Or.inl rfl
  by_cases htr : tool_input.truthy = true
  · rw [if_pos htr] at h
    cases h6 : toolArgScan tool_input priorityKeys with
    | error e => rw [h6, except_bind_error] at h; cases h
    | ok args =>
      rw [h6, except_bind_ok] at h
      simp only [pure, Except.pure, Except.ok.injEq] at h
      subst h
      exact endsNL_concat4 _ _ _ _ hT (toolArgScan_opt _ _ _ h6)
  · rw [if_neg htr, except_bind_ok] at h
    simp only [pure, Except.pure, Except.ok.injEq] at h
    subst h
    exact endsNL_concat4 _ _ _ _ hT (Or.inl rfl)

theorem stepStartBody_endsNL (part : JVal) (body : List Seg)
    (h : stepStartBody part = .ok body) : EndsNL body := by
  unfold stepStartBody at h
  cases h1 : JVal.get part ("type") (.str ("")) with
  | error e => rw [h1, except_bind_error] at h; cases h
  | ok step_type =>
  rw [h1, except_bind_ok] at h
  split at h
  · injection h with h
    exact h ▸ ⟨[], _, rfl, rfl⟩
  · injection h with h
    exact h ▸ endsNL_nlSeg

theorem stepFinishBody_endsNL (part : JVal) (body : List Seg)
    (h : stepFinishBody part = .ok body) : EndsNL body := by
  unfold stepFinishBody at h
  cases h1 : JVal.get part ("type") (.str ("")) with
  | error e => rw [h1, except_bind_error] at h; cases h
  | ok step_type =>
  rw [h1, except_bind_ok] at h
  cases h2 : JVal.get part ("time") (.obj []) with
  | error e => rw [h2, except_bind_error] at h; cases h
  | ok time_info =>
  rw [h2, except_bind_ok] at h
  cases h3 : JVal.get time_info ("start") .null with
  | error e => rw [h3, except_bind_error] at h; cases h
  | ok start_time =>
  rw [h3, except_bind_ok] at h
  cases h4 : JVal.get time_info ("end") .null with
  | error e => rw [h4, except_bind_error] at h; cases h
  | ok end_time =>
  rw [h4, except_bind_ok] at h
  by_cases htr : (start_time.truthy && end_time.truthy) = true
  · rw [if_pos htr] at h
    cases h5 : pySub end_time start_time with
    | error e =>
      rw [h5] at h
      simp only [Except.map, except_bind_error] at h
      cases h
    | ok d =>
      rw [h5] at h
      simp only [Except.map, except_bind_ok, pure, Except.pure,
        Except.ok.injEq] at h
      subst h
      exact EndsNL.append_left _ endsNL_nlSeg
  · rw [if_neg htr, except_bind_ok] at h
    simp only [pure, Except.pure, Except.ok.injEq] at h
    subst h
    exact EndsNL.append_left _ endsNL_nlSeg

theorem shown_block_opt {α : Type} (p : α → Bool) (sty : α → Style)
    (txt : α → String) (x : α) :
    (if p x then [indentSeg, ⟨txt x, sty x, "\n"⟩] else []) = [] ∨
      EndsNL (if p x then [indentSeg, ⟨txt x, sty x, "\n"⟩] else []) := by
  split
  · exact Or.inr ⟨[indentSeg], _, rfl, rfl⟩
  · exact Or.inl rfl

theorem textShown_opt (lines : List String) :
    textShown lines = [] ∨ EndsNL (textShown lines) := by
  unfold textShown
  refine endsNL_flatMap _ _ (fun q => ?_)
  exact shown_block_opt (fun q => pyStrip q.2 != "" || q.1 == 0)
    (fun q => if q.1 == 0 then styReset else styDim) (fun q => q.2) q

theorem textSummary_opt (lines : List String) :
    textSummary lines = [] ∨ EndsNL (textSummary lines) := by
  unfold textSummary
  split
  · exact Or.inr ⟨[indentSeg], _, rfl, rfl⟩
  · exact Or.inl rfl

theorem thinkingShown_opt (lines : List String) :
    thinkingShown lines = [] ∨ EndsNL (thinkingShown lines) := by
  unfold thinkingShown
  refine endsNL_flatMap _ _ (fun q => ?_)
  exact shown_block_opt (fun q => pyStrip q.2 != "")
    (fun _ => styMagenta) (fun q => q.2) q

theorem thinkingSummary_opt (lines : List String) :
    thinkingSummary lines = [] ∨ EndsNL (thinkingSummary lines) := by
  unfold thinkingSummary
  split
  · exact Or.inr ⟨[indentSeg], _, rfl, rfl⟩
  · exact Or.inl rfl

theorem textBody_endsNL (lines : List String) : EndsNL (textBody lines) := by
  unfold textBody
  have h := (endsNL_nlSeg.append_opt (textShown_opt lines)).append_opt
    (textSummary_opt lines)
  simpa [List.append_assoc] using h

theorem thinkingBody_endsNL (lines : List String) : EndsNL (thinkingBody lines) := by
  unfold thinkingBody
  have h := (endsNL_nlSeg.append_opt (thinkingShown_opt lines)).append_opt
    (thinkingSummary_opt lines)
  simpa [List.append_assoc] using h

theorem textBranch_endsNL (part : JVal) (body : List Seg)
    (h : textBranch part = .ok body) : EndsNL body := by
  unfold textBranch at h
  cases h1 : JVal.get part ("text") (.str ("")) with
  | error e => rw [h1, except_bind_error] at h; cases h
  | ok tc =>
  rw [h1, except_bind_ok] at h
  split at h
  · cases h2 : pySplitNL tc with
    | error e => rw [h2, except_bind_error] at h; cases h
    | ok lines =>
      rw [h2, except_bind_ok] at h
      simp only [pure, Except.pure, Except.ok.injEq] at h
      exact h ▸ textBody_endsNL lines
  · injection h with h
    exact h ▸ endsNL_nlSeg

theorem thinkingBranch_endsNL (part : JVal) (body : List Seg)
    (h : thinkingBranch part = .ok body) : EndsNL body := by
  unfold thinkingBranch at h
  cases h1 : JVal.get part ("text") (.str ("")) with
  | error e => rw [h1, except_bind_error] at h; cases h
  | ok tc =>
  rw [h1, except_bind_ok] at h
  split at h
  · cases h2 : pySplitNL tc with
    | error e => rw [h2, except_bind_error] at h; cases h
    | ok lines =>
      rw [h2, except_bind_ok] at h
      simp only [pure, Except.pure, Except.ok.injEq] at h
      exact h ▸ thinkingBody_endsNL lines
  · injection h with h
    exact h ▸ endsNL_nlSeg

theorem errorBody_endsNL (error_data : JVal) (body : List Seg)
    (h : errorBody error_data = .ok body) : EndsNL body := by
  unfold errorBody at h
  cases h1 : JVal.get error_data ("name") (.str ("Error")) with
  | error e => rw [h1, except_bind_error] at h; cases h
  | ok error_name =>
  rw [h1, except_bind_ok] at h
  cases h2 : JVal.get error_data ("data") (.obj []) with
  | error e => rw [h2, except_bind_error] at h; cases h
  | ok d =>
  rw [h2, except_bind_ok] at h
  cases h3 : JVal.get d ("message") (.str (pyStr error_data)) with
  | error e => rw [h3, except_bind_error] at h; cases h
  | ok error_msg =>
  rw [h3, except_bind_ok] at h
  injection h with h
  exact h ▸ ⟨[nlSeg, indentSeg,
    ⟨pyStr error_name ++ ": ", Style.add styRed styBright, ""⟩], _, rfl, rfl⟩

theorem unknownBody_endsNL (part error_data : JVal) :
    EndsNL (unknownBody part error_data) := by
  unfold unknownBody
  dsimp only
  split
  · exact ⟨[nlSeg, indentSeg], _, rfl, rfl⟩
  · split
    · exact ⟨[nlSeg, indentSeg], _, rfl, rfl⟩
    · exact endsNL_nlSeg

theorem bodySegs_endsNL (et part err : JVal) (body : List Seg)
    (h : bodySegs et part err = .ok body) : EndsNL body := by
  unfold bodySegs at h
  split at h
  · exact toolBody_endsNL _ _ h
  split at h
  · exact stepStartBody_endsNL _ _ h
  split at h
  · exact stepFinishBody_endsNL _ _ h
  split at h
  · exact textBranch_endsNL _ _ h
  split at h
  · exact thinkingBranch_endsNL _ _ h
  split at h
  · exact errorBody_endsNL _ _ h
  split at h
  · injection h with h
    exact h ▸ endsNL_nlSeg
  · injection h with h
    exact h ▸ unknownBody_endsNL _ _

theorem trailing_tail (event_type part error_data : JVal) (dbg segs : List Seg)
    (h : (pyReplaceUS event_type >>= fun label =>
        bodySegs event_type part error_data >>= fun body =>
        pure (dbg ++ [⟨(get_event_style event_type).1 ++ " ", styReset, ""⟩,
          ⟨pyTitle label, (get_event_style event_type).2, ""⟩] ++ body ++ [nlSeg]))
      = Except.ok segs) :
    2 ≤ nlRun (renderText segs) := by
  cases h7 : pyReplaceUS event_type with
  | error e => rw [h7, except_bind_error] at h; cases h
  | ok label =>
  rw [h7, except_bind_ok] at h
  cases h8 : bodySegs event_type part error_data with
  | error e => rw [h8, except_bind_error] at h; cases h
  | ok body =>
  rw [h8, except_bind_ok] at h
  simp only [pure, Except.pure, Except.ok.injEq] at h
  subst h
  obtain ⟨t, ht⟩ := endsNL_renderText (bodySegs_endsNL _ _ _ _ h8)
  apply nlRun_ge_two
  refine ⟨(renderText (dbg ++
    [⟨(get_event_style event_type).1 ++ " ", styReset, ""⟩,
      ⟨pyTitle label, (get_event_style event_type).2, ""⟩])).data ++ t, ?_⟩
  rw [renderText_append, renderText_append]
  have hnl : (renderText [nlSeg]).data = ['\n'] := rfl
  simp only [string_data_append, ht, hnl]
  simp [List.append_assoc]

theorem trailing_blank_of_ok (ev : JVal) (d : Bool) (segs : List Seg)
    (h : format_opencode_event ev d = .ok segs) :
    2 ≤ nlRun (renderText segs) := by
  unfold format_opencode_event at h
  cases h1 : JVal.get ev ("type") (.str ("unknown")) with
  | error e => rw [h1, except_bind_error] at h; cases h
  | ok event_type =>
  rw [h1, except_bind_ok] at h
  cases h2 : JVal.get ev ("timestamp") (.str ("")) with
  | error e => rw [h2, except_bind_error] at h; cases h
  | ok timestamp =>
  rw [h2, except_bind_ok] at h
  cases h3 : JVal.get ev ("sessionID") (.str ("")) with
  | error e => rw [h3, except_bind_error] at h; cases h
  | ok session_id =>
  rw [h3, except_bind_ok] at h
  cases h4 : JVal.get ev ("part") (.obj []) with
  | error e => rw [h4, except_bind_error] at h; cases h
  | ok part =>
  rw [h4, except_bind_ok] at h
  cases h5 : JVal.get ev ("error") (.obj []) with
  | error e => rw [h5, except_bind_error] at h; cases h
  | ok error_data =>
  rw [h5, except_bind_ok] at h
  dsimp only at h
  cases d with
  | true =>
    rw [if_pos rfl] at h
    cases h6 : debugSegs timestamp session_id with
    | error e => rw [h6, except_bind_error] at h; cases h
    | ok dbg =>
      rw [h6, except_bind_ok] at h
      exact trailing_tail _ _ _ _ _ h
  | false =>
    rw [if_neg Bool.false_ne_true, except_bind_ok] at h
    exact trailing_tail _ _ _ _ _ h

theorem string_ne_empty_of_right (t lit : String) (h : lit.data ≠ []) :
    t ++ lit ≠ "" := by
  intro he
  have hd : t.data ++ lit.data = [] := by
    rw [← string_data_append, he]
  exact h (List.append_eq_nil.mp hd).2

theorem string_ne_empty_of_left (lit t : String) (h : lit.data ≠ []) :
    lit ++ t ≠ "" := by
  intro he
  have hd : lit.data ++ t.data = [] := by
    rw [← string_data_append, he]
  exact h (List.append_eq_nil.mp hd).1

theorem nlRun_eq_two {s : String}
    (h : ∃ u, s.data = u ++ ['\n', '\n'] ∧ u.getLast? ≠ some '\n') :
    nlRun s = 2 := by
  obtain ⟨u, hs, hu⟩ := h
  unfold nlRun
  rw [hs, List.reverse_append]
  have hrev : (['\n', '\n'] : List Char).reverse = ['\n', '\n'] := rfl
  rw [hrev]
  have hnl : (('\n' : Char) == '\n') = true := rfl
  have htail : u.reverse.takeWhile (fun c => c == '\n') = [] := by
    cases hr : u.reverse with
    | nil => rfl
    | cons c t =>
      have hc : u.getLast? = some c := by
        rw [← List.head?_reverse, hr]
        rfl
      have hcne : (c == '\n') = false := by
        have : c ≠ '\n' := fun hcc => hu (by rw [hc, hcc])
        simp [this]
      rw [List.takeWhile_cons, hcne]
      rfl
  rw [show (['\n', '\n'] ++ u.reverse : List Char) =
    '\n' :: '\n' :: u.reverse from rfl]
  rw [List.takeWhile_cons, hnl, List.takeWhile_cons, hnl, htail]
  rfl

theorem goodBody_nlSeg : GoodBody [nlSeg] :=
  ⟨[], nlSeg, rfl, rfl, fun _ => Or.inl rfl⟩

theorem goodBody_single (g : Seg) (hl : g.lineEnd = "\n") (ht : g.text ≠ "") :
    GoodBody [g] :=
  ⟨[], g, rfl, hl, fun he => absurd he ht⟩

theorem goodBody_line_end (M : List Seg) (hM : TailPre M) :
    GoodBody (M ++ [nlSeg]) := by
  rcases hM with rfl | ⟨A, pre, rfl, hpe, hpt⟩
  · simpa using goodBody_nlSeg
  · exact ⟨A ++ [pre], nlSeg, rfl, rfl, fun _ => Or.inr ⟨A, pre, rfl, hpe, hpt⟩⟩

theorem tailPre_nil : TailPre [] := Or.inl rfl

theorem tailPre_single (g : Seg) (hpe : g.lineEnd = "") (hpt : g.text ≠ "") :
    TailPre [g] := Or.inr ⟨[], g, rfl, hpe, hpt⟩

theorem TailPre.append {M N : List Seg} (hM : TailPre M) (hN : TailPre N) :
    TailPre (M ++ N) := by
  rcases hN with rfl | ⟨A, pre, rfl, hpe, hpt⟩
  · simpa using hM
  · exact Or.inr ⟨M ++ A, pre, by simp, hpe, hpt⟩

theorem flatMap_tail_block {α : Type} (f : α → List Seg)
    (hf : ∀ x, f x = [] ∨ ∃ g, g.lineEnd = "\n" ∧ f x = [indentSeg, g])
    (L : List α) :
    L.flatMap f = [] ∨
      ∃ R g, g.lineEnd = "\n" ∧ L.flatMap f = R ++ [indentSeg, g] := by
  induction L with
  | nil => exact Or.inl rfl
  | cons y ys ih =>
    rw [List.flatMap_cons]
    rcases ih with hih | ⟨R, g, hg, hih⟩
    · rw [hih, List.append_nil]
      rcases hf y with h0 | ⟨g, hg, hfy⟩
      · exact Or.inl h0
      · exact Or.inr ⟨[], g, hg, by rw [hfy]; rfl⟩
    · rw [hih]
      exact Or.inr ⟨f y ++ R, g, hg, by rw [List.append_assoc]⟩

theorem textShown_tail (lines : List String) :
    textShown lines = [] ∨
      ∃ R g, g.lineEnd = "\n" ∧ textShown lines = R ++ [indentSeg, g] := by
  unfold textShown
  refine flatMap_tail_block _ (fun p => ?_) _
  dsimp only
  split
  · exact Or.inr ⟨_, rfl, rfl⟩
  · exact Or.inl rfl

theorem thinkingShown_tail (lines : List String) :
    thinkingShown lines = [] ∨
      ∃ R g, g.lineEnd = "\n" ∧ thinkingShown lines = R ++ [indentSeg, g] := by
  unfold thinkingShown
  refine flatMap_tail_block _ (fun p => ?_) _
  dsimp only
  split
  · exact Or.inr ⟨_, rfl, rfl⟩
  · exact Or.inl rfl

theorem toolArgScan_shape (tool_input : JVal) (ks : List String)
    (args : List Seg) (h : toolArgScan tool_input ks = .ok args) :
    args = [] ∨ ∃ (k : String) (v : JVal),
      args = [indentSeg, ⟨k ++ ": ", styDim, ""⟩,
        ⟨safe_str v (some 80), styGreen, "\n"⟩] := by
  induction ks with
  | nil =>
    injection h with h
    exact Or.inl h.symm
  | cons k ks ih =>
    unfold toolArgScan at h
    cases hc : pyContains tool_input k with
    | error e => rw [hc, except_bind_error] at h; cases h
    | ok b =>
      rw [hc, except_bind_ok] at h
      cases b with
      | true =>
        rw [if_pos rfl] at h
        cases hv : pyIndex tool_input k with
        | error e => rw [hv, except_bind_error] at h; cases h
        | ok v =>
          rw [hv, except_bind_ok] at h
          injection h with h
          exact Or.inr ⟨k, v, h.symm⟩
      | false =>
        rw [if_neg Bool.false_ne_true] at h
        exact ih h

theorem toolBody_good_aux (n : Seg) (S T args : List Seg)
    (hn : n.lineEnd = "" ∧ n.text ≠ "") (hS : TailPre S)
    (hT : T = [] ∨ ∃ tseg, tseg.lineEnd = "\n" ∧ T = [indentSeg, tseg])
    (hargs : args = [] ∨ ∃ pre lastg, pre.lineEnd = "" ∧ pre.text ≠ "" ∧
      lastg.lineEnd = "\n" ∧ args = [indentSeg, pre, lastg]) :
    GoodBody ([n] ++ S ++ [nlSeg] ++ T ++ args) := by
  rcases hargs with rfl | ⟨pre, lastg, hpe, hpt, hle, rfl⟩
  · rw [List.append_nil]
    rcases hT with rfl | ⟨tseg, hts, rfl⟩
    · rw [List.append_nil]
      exact goodBody_line_end ([n] ++ S)
        ((tailPre_single n hn.1 hn.2).append hS)
    · exact ⟨([n] ++ S ++ [nlSeg]) ++ [indentSeg], tseg, by simp, hts,
        fun _ => Or.inr ⟨[n] ++ S ++ [nlSeg], indentSeg, rfl, rfl, by decide⟩⟩
  · exact ⟨([n] ++ S ++ [nlSeg] ++ T) ++ [indentSeg, pre], lastg, by simp, hle,
      fun _ => Or.inr ⟨([n] ++ S ++ [nlSeg] ++ T) ++ [indentSeg], pre, by simp,
        hpe, hpt⟩⟩

theorem toolBody_good (part : JVal) (body : List Seg)
    (h : toolBody part = .ok body) : GoodBody body := by
  unfold toolBody at h
  cases h1 : JVal.get part ("tool") (.str ("unknown")) with
  | error e => rw [h1, except_bind_error] at h; cases h
  | ok tool_name =>
  rw [h1, except_bind_ok] at h
  cases h2 : JVal.get part ("state") (.obj []) with
  | error e => rw [h2, except_bind_error] at h; cases h
  | ok tool_state =>
  rw [h2, except_bind_ok] at h
  cases h3 : JVal.get tool_state ("title") (.str ("")) with
  | error e => rw [h3, except_bind_error] at h; cases h
  | ok tool_title =>
  rw [h3, except_bind_ok] at h
  cases h4 : JVal.get tool_state ("input") (.obj []) with
  | error e => rw [h4, except_bind_error] at h; cases h
  | ok tool_input =>
  rw [h4, except_bind_ok] at h
  cases h5 : JVal.get tool_state ("status") (.str ("")) with
  | error e => rw [h5, except_bind_error] at h; cases h
  | ok tool_status =>
  rw [h5, except_bind_ok] at h
  have hn : (⟨" (" ++ pyStr tool_name ++ ")", styCyan, ""⟩ : Seg).lineEnd = ""
      ∧ (⟨" (" ++ pyStr tool_name ++ ")", styCyan, ""⟩ : Seg).text ≠ "" :=
    ⟨rfl, string_ne_empty_of_right _ (")") (by decide)⟩
  have hS : TailPre (if tool_status.truthy = true then
      [⟨" [" ++ pyStr tool_status ++ "]",
        (if tool_status.isStr ("completed") = true then styGreen else styYellow),
        ""⟩] else []) := by
    split
    · exact tailPre_single _ rfl (string_ne_empty_of_right _ ("]") (by decide))
    · exact tailPre_nil
  have hT : (if tool_title.truthy = true then
      [indentSeg, ⟨"Title: " ++ pyStr tool_title, styDim, "\n"⟩] else []) = []
      ∨ ∃ tseg, tseg.lineEnd = "\n" ∧
        (if tool_title.truthy = true then
          [indentSeg, ⟨"Title: " ++ pyStr tool_title, styDim, "\n"⟩] else []) =
          [indentSeg, tseg] := by
    split
    · exact Or.inr ⟨_, rfl, rfl⟩
    · exact Or.inl rfl
  by_cases htr : tool_input.truthy = true
  · rw [if_pos htr] at h
    cases h6 : toolArgScan tool_input priorityKeys with
    | error e => rw [h6, except_bind_error] at h; cases h
    | ok args =>
      rw [h6, except_bind_ok] at h
      simp only [pure, Except.pure, Except.ok.injEq] at h
      subst h
      refine toolBody_good_aux _ _ _ _ hn hS hT ?_
      rcases toolArgScan_shape _ _ _ h6 with rfl | ⟨k, v, rfl⟩
      · exact Or.inl rfl
      · exact Or.inr ⟨⟨k ++ ": ", styDim, ""⟩,
          ⟨safe_str v (some 80), styGreen, "\n"⟩, rfl,
          string_ne_empty_of_right _ (": ") (by decide), rfl, rfl⟩
  · rw [if_neg htr, except_bind_ok] at h
    simp only [pure, Except.pure, Except.ok.injEq] at h
    subst h
    exact toolBody_good_aux _ _ _ _ hn hS hT (Or.inl rfl)

theorem stepStartBody_good (part : JVal) (body : List Seg)
    (h : stepStartBody part = .ok body) : GoodBody body := by
  unfold stepStartBody at h
  cases h1 : JVal.get part ("type") (.str ("")) with
  | error e => rw [h1, except_bind_error] at h; cases h
  | ok step_type =>
  rw [h1, except_bind_ok] at h
  split at h
  · injection h with h
    subst h
    exact goodBody_single _ rfl (string_ne_empty_of_left (" - ") _ (by decide))
  · injection h with h
    subst h
    exact goodBody_nlSeg

theorem stepFinishBody_good (part : JVal) (body : List Seg)
    (h : stepFinishBody part = .ok body) : GoodBody body := by
  unfold stepFinishBody at h
  cases h1 : JVal.get part ("type") (.str ("")) with
  | error e => rw [h1, except_bind_error] at h; cases h
  | ok step_type =>
  rw [h1, except_bind_ok] at h
  cases h2 : JVal.get part ("time") (.obj []) with
  | error e => rw [h2, except_bind_error] at h; cases h
  | ok time_info =>
  rw [h2, except_bind_ok] at h
  cases h3 : JVal.get time_info ("start") .null with
  | error e => rw [h3, except_bind_error] at h; cases h
  | ok start_time =>
  rw [h3, except_bind_ok] at h
  cases h4 : JVal.get time_info ("end") .null with
  | error e => rw [h4, except_bind_error] at h; cases h
  | ok end_time =>
  rw [h4, except_bind_ok] at h
  have hTp : TailPre (if step_type.truthy = true then
      [⟨" - " ++ pyStr step_type, styGreen, ""⟩] else []) := by
    split
    · exact tailPre_single _ rfl (string_ne_empty_of_left (" - ") _ (by decide))
    · exact tailPre_nil
  by_cases htr : (start_time.truthy && end_time.truthy) = true
  · rw [if_pos htr] at h
    cases h5 : pySub end_time start_time with
    | error e =>
      rw [h5] at h
      simp only [Except.map, except_bind_error] at h
      cases h
    | ok d =>
      rw [h5] at h
      simp only [Except.map, except_bind_ok, pure, Except.pure,
        Except.ok.injEq] at h
      subst h
      refine goodBody_line_end _ (hTp.append ?_)
      split
      · exact tailPre_single _ rfl
          (string_ne_empty_of_right _ ("ms)") (by decide))
      · exact tailPre_nil
  · rw [if_neg htr, except_bind_ok] at h
    simp only [pure, Except.pure, Except.ok.injEq] at h
    subst h
    exact goodBody_line_end _ (hTp.append tailPre_nil)

theorem textBody_good (lines : List String) : GoodBody (textBody lines) := by
  unfold textBody
  by_cases hc : lines.length > min 5 lines.length
  · have hsum : textSummary lines = [indentSeg,
        ⟨"... (" ++ toString (lines.length - min 5 lines.length) ++
          " more lines)", styDim, "\n"⟩] := by
      unfold textSummary
      rw [if_pos hc]
    rw [hsum]
    exact ⟨([nlSeg] ++ textShown lines) ++ [indentSeg],
      ⟨"... (" ++ toString (lines.length - min 5 lines.length) ++
        " more lines)", styDim, "\n"⟩, by simp, rfl,
      fun _ => Or.inr ⟨[nlSeg] ++ textShown lines, indentSeg, rfl, rfl,
        by decide⟩⟩
  · have hsum : textSummary lines = [] := by
      unfold textSummary
      rw [if_neg hc]
    rw [hsum, List.append_nil]
    rcases textShown_tail lines with hsh | ⟨R, g, hg, hsh⟩
    · rw [hsh, List.append_nil]
      exact goodBody_nlSeg
    · rw [hsh]
      exact ⟨([nlSeg] ++ R) ++ [indentSeg], g, by simp, hg,
        fun _ => Or.inr ⟨[nlSeg] ++ R, indentSeg, rfl, rfl, by decide⟩⟩

theorem thinkingBody_good (lines : List String) :
    GoodBody (thinkingBody lines) := by
  unfold thinkingBody
  by_cases hc : lines.length > min 3 lines.length
  · have hsum : thinkingSummary lines = [indentSeg,
        ⟨"... (" ++ toString (lines.length - min 3 lines.length) ++
          " more lines)", styDim, "\n"⟩] := by
      unfold thinkingSummary
      rw [if_pos hc]
    rw [hsum]
    exact ⟨([nlSeg] ++ thinkingShown lines) ++ [indentSeg],
      ⟨"... (" ++ toString (lines.length - min 3 lines.length) ++
        " more lines)", styDim, "\n"⟩, by simp, rfl,
      fun _ => Or.inr ⟨[nlSeg] ++ thinkingShown lines, indentSeg, rfl, rfl,
        by decide⟩⟩
  · have hsum : thinkingSummary lines = [] := by
      unfold thinkingSummary
      rw [if_neg hc]
    rw [hsum, List.append_nil]
    rcases thinkingShown_tail lines with hsh | ⟨R, g, hg, hsh⟩
    · rw [hsh, List.append_nil]
      exact goodBody_nlSeg
    · rw [hsh]
      exact ⟨([nlSeg] ++ R) ++ [indentSeg], g, by simp, hg,
        fun _ => Or.inr ⟨[nlSeg] ++ R, indentSeg, rfl, rfl, by decide⟩⟩

theorem textBranch_good (part : JVal) (body : List Seg)
    (h : textBranch part = .ok body) : GoodBody body := by
  unfold textBranch at h
  cases h1 : JVal.get part ("text") (.str ("")) with
  | error e => rw [h1, except_bind_error] at h; cases h
  | ok tc =>
  rw [h1, except_bind_ok] at h
  split at h
  · cases h2 : pySplitNL tc with
    | error e => rw [h2, except_bind_error] at h; cases h
    | ok lines =>
      rw [h2, except_bind_ok] at h
      simp only [pure, Except.pure, Except.ok.injEq] at h
      exact h ▸ textBody_good lines
  · injection h with h
    exact h ▸ goodBody_nlSeg

theorem thinkingBranch_good (part : JVal) (body : List Seg)
    (h : thinkingBranch part = .ok body) : GoodBody body := by
  unfold thinkingBranch at h
  cases h1 : JVal.get part ("text") (.str ("")) with
  | error e => rw [h1, except_bind_error] at h; cases h
  | ok tc =>
  rw [h1, except_bind_ok] at h
  split at h
  · cases h2 : pySplitNL tc with
    | error e => rw [h2, except_bind_error] at h; cases h
    | ok lines =>
      rw [h2, except_bind_ok] at h
      simp only [pure, Except.pure, Except.ok.injEq] at h
      exact h ▸ thinkingBody_good lines
  · injection h with h
    exact h ▸ goodBody_nlSeg

theorem errorBody_good (error_data : JVal) (body : List Seg)
    (h : errorBody error_data = .ok body) : GoodBody body := by
  unfold errorBody at h
  cases h1 : JVal.get error_data ("name") (.str ("Error")) with
  | error e => rw [h1, except_bind_error] at h; cases h
  | ok error_name =>
  rw [h1, except_bind_ok] at h
  cases h2 : JVal.get error_data ("data") (.obj []) with
  | error e => rw [h2, except_bind_error] at h; cases h
  | ok d =>
  rw [h2, except_bind_ok] at h
  cases h3 : JVal.get d ("message") (.str (pyStr error_data)) with
  | error e => rw [h3, except_bind_error] at h; cases h
  | ok error_msg =>
  rw [h3, except_bind_ok] at h
  injection h with h
  subst h
  exact ⟨[nlSeg, indentSeg,
      ⟨pyStr error_name ++ ": ", Style.add styRed styBright, ""⟩], _, rfl, rfl,
    fun _ => Or.inr ⟨[nlSeg, indentSeg],
      ⟨pyStr error_name ++ ": ", Style.add styRed styBright, ""⟩, rfl, rfl,
      string_ne_empty_of_right _ (": ") (by decide)⟩⟩

theorem unknownBody_good (part error_data : JVal) :
    GoodBody (unknownBody part error_data) := by
  unfold unknownBody
  dsimp only
  split
  · exact ⟨[nlSeg, indentSeg], _, rfl, rfl,
      fun _ => Or.inr ⟨[nlSeg], indentSeg, rfl, rfl, by decide⟩⟩
  · split
    · exact ⟨[nlSeg, indentSeg], _, rfl, rfl,
        fun _ => Or.inr ⟨[nlSeg], indentSeg, rfl, rfl, by decide⟩⟩
    · exact goodBody_nlSeg

theorem bodySegs_good (et part err : JVal) (body : List Seg)
    (h : bodySegs et part err = .ok body) : GoodBody body := by
  unfold bodySegs at h
  split at h
  · exact toolBody_good _ _ h
  split at h
  · exact stepStartBody_good _ _ h
  split at h
  · exact stepFinishBody_good _ _ h
  split at h
  · exact textBranch_good _ _ h
  split at h
  · exact thinkingBranch_good _ _ h
  split at h
  · exact errorBody_good _ _ h
  split at h
  · injection h with h
    exact h ▸ goodBody_nlSeg
  · injection h with h
    exact h ▸ unknownBody_good _ _

theorem nlRun_render_exact (dbg : List Seg) (iconStr title : String)
    (sty1 sty2 : Style) (mid : List Seg) (last : Seg)
    (hl : last.lineEnd = "\n")
    (hlast : last.text.data.getLast? ≠ some '\n')
    (htitle : title.data.getLast? ≠ some '\n')
    (hempty : last.text = "" →
      mid = [] ∨ ∃ mid2 pre, mid = mid2 ++ [pre] ∧ pre.lineEnd = "" ∧
        pre.text ≠ "" ∧ pre.text.data.getLast? ≠ some '\n') :
    nlRun (renderText (dbg ++ [⟨iconStr ++ " ", sty1, ""⟩, ⟨title, sty2, ""⟩] ++
      (mid ++ [last]) ++ [nlSeg])) = 2 := by
  apply nlRun_eq_two
  refine ⟨(renderText (dbg ++
      [⟨iconStr ++ " ", sty1, ""⟩, ⟨title, sty2, ""⟩])).data ++
    (renderText mid).data ++ last.text.data, ?_, ?_⟩
  · have hlastd : (renderText [last]).data = last.text.data ++ ['\n'] := by
      show (last.text ++ last.lineEnd ++ "").data = last.text.data ++ ['\n']
      rw [hl]
      simp [string_data_append, show ("\n" : String).data = ['\n'] from rfl,
        show ("" : String).data = ([] : List Char) from rfl]
    have hnld : (renderText [nlSeg]).data = ['\n'] := rfl
    simp only [renderText_append, string_data_append, hlastd, hnld]
    simp [List.append_assoc]
  · by_cases he : last.text = ""
    · have hed : last.text.data = [] := by rw [he]
      rw [hed, List.append_nil]
      rcases hempty he with hm | ⟨mid2, pre, hmeq, hpe, hpt, hpl⟩
      · subst hm
        rw [show (renderText ([] : List Seg)).data = [] from rfl,
          List.append_nil, renderText_append, string_data_append]
        have h1 : (renderText [(⟨iconStr ++ " ", sty1, ""⟩ : Seg),
            ⟨title, sty2, ""⟩]).data = (iconStr.data ++ [' ']) ++ title.data := by
          show ((iconStr ++ " ") ++ "" ++ (title ++ "" ++ "")).data = _
          simp [string_data_append, show (" " : String).data = [' '] from rfl,
            show ("" : String).data = ([] : List Char) from rfl,
            List.append_assoc]
        rw [h1]
        by_cases ht : title.data = []
        · rw [ht, List.append_nil,
            List.getLast?_append_of_ne_nil _ (by simp),
            List.getLast?_concat]
          decide
        · rw [List.getLast?_append_of_ne_nil _ (by simp [ht]),
            List.getLast?_append_of_ne_nil _ ht]
          exact htitle
      · rw [hmeq]
        have hsplit : renderText (mid2 ++ [pre]) =
            renderText mid2 ++ renderText [pre] := renderText_append mid2 [pre]
        have hpd : (renderText [pre]).data = pre.text.data := by
          show (pre.text ++ pre.lineEnd ++ "").data = pre.text.data
          rw [hpe]
          simp [string_data_append,
            show ("" : String).data = ([] : List Char) from rfl]
        rw [hsplit, string_data_append, hpd]
        have hpred : pre.text.data ≠ [] := fun hcd =>
          hpt (string_eq_of_data (by rw [hcd]))
        rw [List.getLast?_append_of_ne_nil _ (by simp [hpred]),
          List.getLast?_append_of_ne_nil _ hpred]
        exact hpl
    · have hld : last.text.data ≠ [] := fun hcd =>
        he (string_eq_of_data (by rw [hcd]))
      rw [List.getLast?_append_of_ne_nil _ hld]
      exact hlast

theorem trailing_exact_tail (event_type part error_data : JVal)
    (dbg segs : List Seg)
    (h : (pyReplaceUS event_type >>= fun label =>
        bodySegs event_type part error_data >>= fun body =>
        pure (dbg ++ [⟨(get_event_style event_type).1 ++ " ", styReset, ""⟩,
          ⟨pyTitle label, (get_event_style event_type).2, ""⟩] ++ body ++
          [nlSeg])) = Except.ok segs)
    (hno : ∀ g ∈ segs, g.text.data.getLast? ≠ some '\n') :
    nlRun (renderText segs) = 2 := by
  cases h7 : pyReplaceUS event_type with
  | error e => rw [h7, except_bind_error] at h; cases h
  | ok label =>
  rw [h7, except_bind_ok] at h
  cases h8 : bodySegs event_type part error_data with
  | error e => rw [h8, except_bind_error] at h; cases h
  | ok body =>
  rw [h8, except_bind_ok] at h
  simp only [pure, Except.pure, Except.ok.injEq] at h
  subst h
  obtain ⟨mid, last, hbody, hl, himp⟩ := bodySegs_good _ _ _ _ h8
  subst hbody
  apply nlRun_render_exact dbg ((get_event_style event_type).1)
    (pyTitle label) styReset ((get_event_style event_type).2) mid last hl
  · exact hno last (by simp)
  · exact hno ⟨pyTitle label, (get_event_style event_type).2, ""⟩ (by simp)
  · intro he
    rcases himp he with hm | ⟨mid2, pre, hmeq, hpe, hpt⟩
    · exact Or.inl hm
    · subst hmeq
      exact Or.inr ⟨mid2, pre, rfl, hpe, hpt, hno pre (by simp)⟩

theorem trailing_exact_of_ok (ev : JVal) (d : Bool) (segs : List Seg)
    (h : format_opencode_event ev d = .ok segs)
    (hno : ∀ g ∈ segs, g.text.data.getLast? ≠ some '\n') :
    nlRun (renderText segs) = 2 := by
  unfold format_opencode_event at h
  cases h1 : JVal.get ev ("type") (.str ("unknown")) with
  | error e => rw [h1, except_bind_error] at h; cases h
  | ok event_type =>
  rw [h1, except_bind_ok] at h
  cases h2 : JVal.get ev ("timestamp") (.str ("")) with
  | error e => rw [h2, except_bind_error] at h; cases h
  | ok timestamp =>
  rw [h2, except_bind_ok] at h
  cases h3 : JVal.get ev ("sessionID") (.str ("")) with
  | error e => rw [h3, except_bind_error] at h; cases h
  | ok session_id =>
  rw [h3, except_bind_ok] at h
  cases h4 : JVal.get ev ("part") (.obj []) with
  | error e => rw [h4, except_bind_error] at h; cases h
  | ok part =>
  rw [h4, except_bind_ok] at h
  cases h5 : JVal.get ev ("error") (.obj []) with
  | error e => rw [h5, except_bind_error] at h; cases h
  | ok error_data =>
  rw [h5, except_bind_ok] at h
  dsimp only at h
  cases d with
  | true =>
    rw [if_pos rfl] at h
    cases h6 : debugSegs timestamp session_id with
    | error e => rw [h6, except_bind_error] at h; cases h
    | ok dbg =>
      rw [h6, except_bind_ok] at h
      exact trailing_exact_tail _ _ _ _ _ h hno
  | false =>
    rw [if_neg Bool.false_ne_true, except_bind_ok] at h
    exact trailing_exact_tail _ _ _ _ _ h hno

theorem safe_str_some (v : JVal) (n : Nat) :
    safe_str v (some n) =
      if n < (pyStr v).length then String.mk ((pyStr v).data.take n) ++ "..."
      else pyStr v := rfl

theorem flatMap_enumFrom_filter {β : Type} (p : String → Bool) (f : String → List β) :
    ∀ (L : List String) (n : Nat),
      (List.enumFrom n L).flatMap (fun q => if p q.2 then f q.2 else []) =
        (L.filter p).flatMap f := by
  intro L
  induction L with
  | nil => intro n; rfl
  | cons x xs ih =>
    intro n
    rw [List.enumFrom_cons, List.flatMap_cons]
    dsimp only
    rw [List.filter_cons]
    by_cases hp : p x = true
    · rw [if_pos hp, if_pos hp, List.flatMap_cons, ih]
    · rw [if_neg hp, if_neg hp, List.nil_append, ih]

theorem flatMap_enumFrom_textTail :
    ∀ (L : List String) (n : Nat), n ≠ 0 →
      (List.enumFrom n L).flatMap (fun q =>
          if pyStrip q.2 != "" || q.1 == 0 then
            [indentSeg, ⟨q.2, (if q.1 == 0 then styReset else styDim), "\n"⟩]
          else []) =
        (L.filter (fun x => pyStrip x != "")).flatMap
          (fun x => [indentSeg, ⟨x, styDim, "\n"⟩]) := by
  intro L
  induction L with
  | nil => intro n _; rfl
  | cons x xs ih =>
    intro n hn
    rw [List.enumFrom_cons, List.flatMap_cons]
    dsimp only
    have hz : ((n : Nat) == 0) = false := by simp [hn]
    rw [hz, Bool.or_false, if_neg Bool.false_ne_true, List.filter_cons]
    by_cases hp : (pyStrip x != "") = true
    · rw [if_pos hp, if_pos hp, List.flatMap_cons, ih _ (Nat.succ_ne_zero n)]
    · rw [if_neg hp, if_neg hp, List.nil_append, ih _ (Nat.succ_ne_zero n)]

/-- Claim C1: the spec's invariant says every field access on `part` and
`error` tolerates absence and type mismatch, so rendering never fails for a
JSON-decodable event.  The code violates this: on the event
`{"type": "tool_use", "part": "x"}` the call `part.get("tool", ...)` is an
attribute access on a string and raises `AttributeError`, so
`format_opencode_event` fails. -/
theorem C1_render_raises_on_string_part :
    format_opencode_event c1Event false = .error .attributeError := rfl

/-- Claim C4: the shared truncation primitive `safe_str` satisfies
`length(truncate(s, n)) <= n + 3`; strings at or under the limit are
returned unchanged; truncation is idempotent; and with no limit it is pure
stringification of any value (hence total). -/
theorem C4_safe_str_truncation :
    (∀ (v : JVal) (n : Nat), (safe_str v (some n)).length ≤ n + 3)
    ∧ (∀ (s : String) (n : Nat), s.length ≤ n → safe_str (.str s) (some n) = s)
    ∧ (∀ (v : JVal) (n : Nat),
        safe_str (.str (safe_str v (some n))) (some n) = safe_str v (some n))
    ∧ (∀ v : JVal, safe_str v none = pyStr v) := by
  refine ⟨?_, ?_, ?_, fun v => rfl⟩
  · intro v n
    rw [safe_str_some]
    split
    · rw [string_length_append]
      have h1 : (String.mk ((pyStr v).data.take n)).length ≤ n := by
        rw [string_length_mk, List.length_take]
        exact min_le_left _ _
      have h2 : ("..." : String).length = 3 := rfl
      omega
    · next hle =>
      have := Nat.le_of_not_lt hle
      omega
  · intro s n h
    rw [safe_str_some]
    exact if_neg (Nat.not_lt.mpr h)
  · intro v n
    by_cases hn : n < (pyStr v).length
    · have hfirst : safe_str v (some n) =
          String.mk ((pyStr v).data.take n) ++ "..." := by
        rw [safe_str_some, if_pos hn]
      have hpy : pyStr (.str (String.mk ((pyStr v).data.take n) ++ "...")) =
          String.mk ((pyStr v).data.take n) ++ "..." := rfl
      have hd : (pyStr v).data.length = (pyStr v).length := rfl
      have hlen : (String.mk ((pyStr v).data.take n) ++ "...").length = n + 3 := by
        rw [string_length_append, string_length_mk, List.length_take, hd,
          min_eq_left (Nat.le_of_lt hn)]
        rfl
      rw [hfirst, safe_str_some, hpy, if_pos (by rw [hlen]; omega)]
      have hl : ((pyStr v).data.take n).length = n := by
        rw [List.length_take, hd]
        exact min_eq_left (Nat.le_of_lt hn)
      have htake : ((String.mk ((pyStr v).data.take n) ++ "...").data).take n =
          (pyStr v).data.take n := by
        rw [string_data_append, List.take_append_of_le_length hl.ge,
          List.take_take, min_self]
      rw [htake]
    · have hfirst : safe_str v (some n) = pyStr v := by
        rw [safe_str_some, if_neg hn]
      have hpy2 : pyStr (.str (pyStr v)) = pyStr v := rfl
      rw [hfirst, safe_str_some, hpy2, if_neg hn]

/-- Witness for claim C4: a concrete string under the limit is returned
unchanged. -/
theorem C4_witness :
    ("abc" : String).length ≤ 5 ∧ safe_str (.str ("abc")) (some 5) = "abc" :=
  ⟨by decide, C4_safe_str_truncation.2.1 ("abc") 5 (by decide)⟩

/-- Claim C9 (amended): every successful rendering ends with at least one
trailing blank line (`nlRun >= 2`: the stream ends with two consecutive
line breaks); and it ends with exactly one blank line (`nlRun = 2`)
whenever no printed value itself ends with a line break — formalized as:
no print call's text ends with the line-break character.  In particular an
event with an unrecognized `type` and empty `part`/`error` payloads renders
only the header line and exactly one trailing blank line, with no body
line. -/
theorem C9_trailing_blank_amended :
    (∀ (ev : JVal) (d : Bool) (segs : List Seg),
        format_opencode_event ev d = .ok segs → 2 ≤ nlRun (renderText segs))
    ∧ (∀ (ev : JVal) (d : Bool) (segs : List Seg),
        format_opencode_event ev d = .ok segs →
        (∀ g ∈ segs, g.text.data.getLast? ≠ some '\n') →
        nlRun (renderText segs) = 2)
    ∧ format_opencode_event c9UnknownEvent false = .ok c9UnknownSegs
    ∧ renderText c9UnknownSegs = "⏺ Custom Evt\n\n"
    ∧ nlRun (renderText c9UnknownSegs) = 2 :=
  ⟨trailing_blank_of_ok, trailing_exact_of_ok, rfl, rfl, by decide⟩

/-- Witness for claim C9: both amended bounds instantiated at the concrete
unknown-kind event, whose print calls end no text with a line break. -/
theorem C9_witness :
    2 ≤ nlRun (renderText c9UnknownSegs) ∧
      nlRun (renderText c9UnknownSegs) = 2 :=
  ⟨C9_trailing_blank_amended.1 c9UnknownEvent false c9UnknownSegs
      C9_trailing_blank_amended.2.2.1,
    C9_trailing_blank_amended.2.1 c9UnknownEvent false c9UnknownSegs
      C9_trailing_blank_amended.2.2.1 (by decide)⟩

/-- Counterexample for claim C9 as stated: an `error` event whose message
ends with a line break renders with two trailing blank lines (`nlRun = 3`),
not exactly one. -/
theorem C9_counterexample :
    ∃ segs, format_opencode_event c9BadEvent false = .ok segs ∧
      nlRun (renderText segs) ≠ 2 :=
  ⟨_, rfl, by decide⟩

/-- Claim C8: blank-line handling differs between `text` and `thinking`.
For `text`, the first line is always rendered — as an (possibly empty)
indented entry in the normal style — while later lines are rendered exactly
when non-blank, in the muted style.  For `thinking`, every rendered line is
required non-blank: blank lines are skipped even at index 0. -/
theorem C8_blank_line_asymmetry :
    (∀ (l : String) (ls : List String),
        textShown (l :: ls) =
          [indentSeg, ⟨l, styReset, "\n"⟩] ++
            ((ls.take (min 4 ls.length)).filter
                (fun x => pyStrip x != "")).flatMap
              (fun x => [indentSeg, ⟨x, styDim, "\n"⟩]))
    ∧ (∀ lines : List String,
        thinkingShown lines =
          ((lines.take (min 3 lines.length)).filter
              (fun x => pyStrip x != "")).flatMap
            (fun x => [indentSeg, ⟨x, styMagenta, "\n"⟩])) := by
  constructor
  · intro l ls
    unfold textShown
    have hlen : (l :: ls).length = ls.length + 1 := rfl
    have hmin : min 5 (ls.length + 1) = min 4 ls.length + 1 :=
      Nat.succ_min_succ 4 ls.length
    rw [hlen, hmin, List.take_succ_cons, List.enum_cons, List.flatMap_cons]
    dsimp only
    have h0 : ((0 : Nat) == 0) = true := rfl
    simp only [h0, Bool.or_true, eq_self_iff_true, if_true]
    congr 1
    exact flatMap_enumFrom_textTail _ 1 one_ne_zero
  · intro lines
    unfold thinkingShown
    exact flatMap_enumFrom_filter (fun x => pyStrip x != "")
      (fun x => [indentSeg, ⟨x, styMagenta, "\n"⟩])
      (lines.take (min 3 lines.length)) 0

/-- Claim C6 (amended): the trailing `... (N more lines)` summary is
governed by the total number of split lines, not the non-skipped ones:
for `text` (cap 5) and `thinking` (cap 3), exactly one summary line is
emitted iff the split line count exceeds the cap, with N = total − cap;
at or under the cap (of total lines) no summary is emitted.  The last two
conjuncts tie the body functions to the renderer on non-empty content. -/
theorem C6_summary_lines_amended :
    (∀ lines : List String, 5 < lines.length →
        textSummary lines = [indentSeg,
          ⟨"... (" ++ toString (lines.length - 5) ++ " more lines)",
            styDim, "\n"⟩])
    ∧ (∀ lines : List String, lines.length ≤ 5 → textSummary lines = [])
    ∧ (∀ lines : List String, 3 < lines.length →
        thinkingSummary lines = [indentSeg,
          ⟨"... (" ++ toString (lines.length - 3) ++ " more lines)",
            styDim, "\n"⟩])
    ∧ (∀ lines : List String, lines.length ≤ 3 → thinkingSummary lines = [])
    ∧ (∀ s : String, s ≠ "" →
        format_opencode_event (mkTextEvent s) false =
          .ok ([⟨"💬 ", styReset, ""⟩, ⟨"Text", styReset, ""⟩] ++
            textBody (pySplitLines s) ++ [nlSeg]))
    ∧ (∀ s : String, s ≠ "" →
        format_opencode_event (mkThinkingEvent s) false =
          .ok ([⟨"🤔 ", styReset, ""⟩, ⟨"Thinking", styMagenta, ""⟩] ++
            thinkingBody (pySplitLines s) ++ [nlSeg])) := by
  refine ⟨?_, ?_, ?_, ?_, ?_, ?_⟩
  · intro lines h
    unfold textSummary
    rw [min_eq_left (Nat.le_of_lt h)]
    rw [if_pos h]
  · intro lines h
    unfold textSummary
    rw [min_eq_right h]
    rw [if_neg (lt_irrefl _)]
  · intro lines h
    unfold thinkingSummary
    rw [min_eq_left (Nat.le_of_lt h)]
    rw [if_pos h]
  · intro lines h
    unfold thinkingSummary
    rw [min_eq_right h]
    rw [if_neg (lt_irrefl _)]
  · intro s hs
    have htr : (JVal.str s).truthy = true := by simp [JVal.truthy, hs]
    have step : format_opencode_event (mkTextEvent s) false =
        (if (JVal.str s).truthy = true
          then (pySplitNL (.str s)) >>= fun lines => pure (textBody lines)
          else pure [nlSeg]) >>= (fun body =>
            pure ([⟨"💬 ", styReset, ""⟩, ⟨"Text", styReset, ""⟩] ++ body ++
              [nlSeg])) := rfl
    rw [step, if_pos htr]
    rfl
  · intro s hs
    have htr : (JVal.str s).truthy = true := by simp [JVal.truthy, hs]
    have step : format_opencode_event (mkThinkingEvent s) false =
        (if (JVal.str s).truthy = true
          then (pySplitNL (.str s)) >>= fun lines => pure (thinkingBody lines)
          else pure [nlSeg]) >>= (fun body =>
            pure ([⟨"🤔 ", styReset, ""⟩, ⟨"Thinking", styMagenta, ""⟩] ++
              body ++ [nlSeg])) := rfl
    rw [step, if_pos htr]
    rfl

/-- Witness for claim C6: the seven-line content `c6Text` exceeds the cap,
so the summary line reports 2 remaining lines, and the renderer emits the
corresponding body. -/
theorem C6_witness :
    textSummary (pySplitLines c6Text) = [indentSeg,
      ⟨"... (" ++ toString ((pySplitLines c6Text).length - 5) ++ " more lines)",
        styDim, "\n"⟩]
    ∧ format_opencode_event (mkTextEvent c6Text) false =
        .ok ([⟨"💬 ", styReset, ""⟩, ⟨"Text", styReset, ""⟩] ++
          textBody (pySplitLines c6Text) ++ [nlSeg]) :=
  ⟨C6_summary_lines_amended.1 _ (by decide),
    C6_summary_lines_amended.2.2.2.2.1 c6Text (by decide)⟩

/-- Counterexample for claim C6 as stated: `c6Text` has only 2 non-skipped
(non-blank) lines — at or under both caps — yet the renderer emits a
summary line, because the code counts all split lines (7), not the
non-skipped ones. -/
theorem C6_counterexample :
    ((pySplitLines c6Text).filter (fun l => pyStrip l != "")).length = 2
    ∧ format_opencode_event (mkTextEvent c6Text) false = .ok c6Segs
    ∧ c6Segs.count ⟨"... (2 more lines)", styDim, "\n"⟩ = 1 :=
  ⟨rfl, rfl, by decide⟩

/-- Claim C5 (amended): for `step_finish` events the duration suffix
` (<end−start>ms)` is appended exactly when both timestamps are truthy
(non-zero) and their difference is non-zero — a start or end equal to 0
suppresses the suffix even though it is a present numeric value.  The
second conjunct is the spec scenario: start=1000, end=1500, type "build"
yields ` - build` followed by ` (500ms)`. -/
theorem C5_duration_amended :
    (∀ (st : JVal) (a b : Int),
        format_opencode_event (mkStepFinishEvent st a b) false =
          .ok (stepFinishHead ++
            (if st.truthy then [⟨" - " ++ pyStr st, styGreen, ""⟩] else []) ++
            (if a ≠ 0 ∧ b ≠ 0 ∧ b - a ≠ 0 then
              [⟨" (" ++ toString (b - a) ++ "ms)", styDim, ""⟩] else []) ++
            [nlSeg, nlSeg]))
    ∧ format_opencode_event (mkStepFinishEvent (.str ("build")) 1000 1500)
        false =
      .ok (stepFinishHead ++ [⟨" - build", styGreen, ""⟩,
        ⟨" (500ms)", styDim, ""⟩, nlSeg, nlSeg]) := by
  constructor
  · intro st a b
    have hlink : format_opencode_event (mkStepFinishEvent st a b) false =
        stepFinishBody (JVal.obj [("type", st),
          ("time", JVal.obj [("start", JVal.int a), ("end", JVal.int b)])]) >>=
          (fun body => pure (stepFinishHead ++ body ++ [nlSeg])) := rfl
    have hbody : stepFinishBody (JVal.obj [("type", st),
        ("time", JVal.obj [("start", JVal.int a), ("end", JVal.int b)])]) =
        Except.ok ((if st.truthy = true
            then [⟨" - " ++ pyStr st, styGreen, ""⟩] else []) ++
          (if a ≠ 0 ∧ b ≠ 0 ∧ b - a ≠ 0 then
            [⟨" (" ++ toString (b - a) ++ "ms)", styDim, ""⟩] else []) ++
          [nlSeg]) := by
      unfold stepFinishBody
      rw [show JVal.get (JVal.obj [("type", st),
          ("time", JVal.obj [("start", JVal.int a), ("end", JVal.int b)])])
          ("type") (.str ("")) = .ok st from rfl, except_bind_ok]
      rw [show JVal.get (JVal.obj [("type", st),
          ("time", JVal.obj [("start", JVal.int a), ("end", JVal.int b)])])
          ("time") (.obj []) =
          .ok (JVal.obj [("start", JVal.int a), ("end", JVal.int b)]) from rfl,
        except_bind_ok]
      rw [show JVal.get (JVal.obj [("start", JVal.int a), ("end", JVal.int b)])
          ("start") .null = .ok (JVal.int a) from rfl, except_bind_ok]
      rw [show JVal.get (JVal.obj [("start", JVal.int a), ("end", JVal.int b)])
          ("end") .null = .ok (JVal.int b) from rfl, except_bind_ok]
      by_cases hab : a ≠ 0 ∧ b ≠ 0
      · have htr : ((JVal.int a).truthy && (JVal.int b).truthy) = true := by
          simp [JVal.truthy, bne_iff_ne, hab.1, hab.2]
        rw [if_pos htr,
          show Except.map some (pySub (JVal.int b) (JVal.int a)) =
            Except.ok (some (b - a)) from rfl, except_bind_ok]
        dsimp only
        have hD : (if ((b - a != 0) = true) then
            [(⟨" (" ++ toString (b - a) ++ "ms)", styDim, ""⟩ : Seg)] else []) =
            (if a ≠ 0 ∧ b ≠ 0 ∧ b - a ≠ 0 then
            [(⟨" (" ++ toString (b - a) ++ "ms)", styDim, ""⟩ : Seg)] else []) := by
          by_cases hd : b - a = 0
          · rw [if_neg (by simp [hd]), if_neg (by simp [hd])]
          · rw [if_pos (by simp [bne_iff_ne, hd]),
              if_pos (⟨hab.1, hab.2, hd⟩ : a ≠ 0 ∧ b ≠ 0 ∧ b - a ≠ 0)]
        rw [hD]
        rfl
      · have htr : ((JVal.int a).truthy && (JVal.int b).truthy) = false := by
          rcases not_and_or.mp hab with ha | hb
          · have ha0 : a = 0 := not_not.mp ha
            subst ha0
            simp [JVal.truthy]
          · have hb0 : b = 0 := not_not.mp hb
            subst hb0
            simp [JVal.truthy]
        rw [if_neg (fun h => absurd (htr.symm.trans h) Bool.false_ne_true),
          except_bind_ok]
        dsimp only
        have hD : (if a ≠ 0 ∧ b ≠ 0 ∧ b - a ≠ 0 then
            [(⟨" (" ++ toString (b - a) ++ "ms)", styDim, ""⟩ : Seg)] else []) =
            ([] : List Seg) := if_neg (fun h => hab ⟨h.1, h.2.1⟩)
        rw [hD]
        rfl
    rw [hlink, hbody, except_bind_ok]
    simp only [pure, Except.pure, Except.ok.injEq, List.append_assoc,
      List.singleton_append, List.cons_append, List.nil_append]
  · rfl

/-- Counterexample for claim C5 as stated: start=0 and end=500 are present
numeric values with truthy difference 500, yet the code (which guards on
the truthiness of the timestamps themselves) emits no duration suffix. -/
theorem C5_counterexample :
    format_opencode_event (mkStepFinishEvent (.str ("build")) 0 500) false =
      .ok c5ZeroSegs
    ∧ c5ZeroSegs.all (fun g => g.text != " (500ms)") = true :=
  ⟨rfl, by decide⟩

theorem toolArgScan_none (fs : List (String × JVal)) :
    ∀ ks : List String, (∀ k ∈ ks, fs.lookup k = none) →
      toolArgScan (.obj fs) ks = .ok [] := by
  intro ks
  induction ks with
  | nil => intro _; rfl
  | cons k ks ih =>
    intro h
    unfold toolArgScan
    rw [show pyContains (.obj fs) k = .ok false by
      rw [show pyContains (.obj fs) k = .ok (fs.lookup k).isSome from rfl,
        h k (List.mem_cons_self k ks)]
      rfl]
    rw [except_bind_ok]
    rw [if_neg Bool.false_ne_true]
    exact ih (fun k' hk' => h k' (List.mem_cons_of_mem _ hk'))

theorem toolArgScan_found (fs : List (String × JVal)) (v : JVal) :
    ∀ (pre : List String) (k : String) (post : List String),
      (∀ k' ∈ pre, fs.lookup k' = none) → fs.lookup k = some v →
      toolArgScan (.obj fs) (pre ++ k :: post) =
        .ok [indentSeg, ⟨k ++ ": ", styDim, ""⟩,
          ⟨safe_str v (some 80), styGreen, "\n"⟩] := by
  intro pre
  induction pre with
  | nil =>
    intro k post hpre hk
    rw [List.nil_append]
    unfold toolArgScan
    rw [show pyContains (.obj fs) k = .ok true by
      rw [show pyContains (.obj fs) k = .ok (fs.lookup k).isSome from rfl, hk]
      rfl]
    rw [except_bind_ok]
    rw [if_pos rfl]
    rw [show pyIndex (.obj fs) k = .ok v by
      rw [show pyIndex (.obj fs) k =
        (match fs.lookup k with
          | some w => Except.ok w
          | none => Except.error PyErr.keyError) from rfl, hk]]
    rw [except_bind_ok]
    rfl
  | cons k0 pre ih =>
    intro k post hpre hk
    rw [List.cons_append]
    unfold toolArgScan
    rw [show pyContains (.obj fs) k0 = .ok false by
      rw [show pyContains (.obj fs) k0 = .ok (fs.lookup k0).isSome from rfl,
        hpre k0 (List.mem_cons_self _ _)]
      rfl]
    rw [except_bind_ok]
    rw [if_neg Bool.false_ne_true]
    exact ih k post (fun k' h' => hpre k' (List.mem_cons_of_mem _ h')) hk

/-- Claim C2: for a well-formed `tool_use` event, the renderer emits at
most one indented argument line — none when no priority key is present in
`part.state.input`, and otherwise exactly the line for the first key of
the fixed priority order present in the payload (the position of the key
inside the payload object is irrelevant, only lookup results matter),
formatted as `<key>: <value>` with the value truncated to 80 characters.
The last conjunct ties the scan to the full renderer. -/
theorem C2_tool_args_priority :
    (∀ fs : List (String × JVal), (∀ k ∈ priorityKeys, fs.lookup k = none) →
        toolArgScan (.obj fs) priorityKeys = .ok [])
    ∧ (∀ (fs : List (String × JVal)) (pre post : List String) (k : String)
        (v : JVal),
        priorityKeys = pre ++ k :: post →
        (∀ k' ∈ pre, fs.lookup k' = none) →
        fs.lookup k = some v →
        toolArgScan (.obj fs) priorityKeys =
          .ok [indentSeg, ⟨k ++ ": ", styDim, ""⟩,
            ⟨safe_str v (some 80), styGreen, "\n"⟩])
    ∧ (∀ input : JVal,
        format_opencode_event (toolEvent input) false =
          (if input.truthy = true then toolArgScan input priorityKeys
            else Except.ok []).map
            (fun args => toolHeadSegs ++ args ++ [nlSeg])) := by
  refine ⟨fun fs h => toolArgScan_none fs priorityKeys h, ?_, ?_⟩
  · intro fs pre post k v hsplit hpre hk
    rw [hsplit]
    exact toolArgScan_found fs v pre k post hpre hk
  · intro input
    have hlink : format_opencode_event (toolEvent input) false =
        (if input.truthy = true
          then toolArgScan input priorityKeys >>= fun args =>
            pure ([(⟨" (unknown)", styCyan, ""⟩ : Seg), nlSeg] ++ args)
          else Except.ok [] >>= fun args =>
            pure ([(⟨" (unknown)", styCyan, ""⟩ : Seg), nlSeg] ++ args)) >>=
          fun body => pure ([(⟨"🔧 ", styReset, ""⟩ : Seg),
            ⟨"Tool Use", styCyan, ""⟩] ++ body ++ [nlSeg]) := rfl
    rw [hlink]
    by_cases ht : input.truthy = true
    · rw [if_pos ht, if_pos ht]
      cases hscan : toolArgScan input priorityKeys with
      | error e => rfl
      | ok args =>
        simp [except_bind_ok, Except.map, pure, Except.pure, toolHeadSegs,
          List.append_assoc]
    · rw [if_neg ht, if_neg ht]
      simp [except_bind_ok, Except.map, pure, Except.pure, toolHeadSegs,
        List.append_assoc]

/-- Witness for claim C2: in a payload listing `url` before `file_path`,
the argument line is still the `file_path` one, because `file_path`
precedes `url` in the fixed priority order (only `path` precedes it, and
it is absent). -/
theorem C2_witness :
    toolArgScan (.obj c2Input) priorityKeys =
      .ok [indentSeg, ⟨"file_path" ++ ": ", styDim, ""⟩,
        ⟨safe_str (.str ("/a/b.txt")) (some 80), styGreen, "\n"⟩]
    ∧ format_opencode_event (toolEvent (.obj c2Input)) false =
        (if (JVal.obj c2Input).truthy = true
          then toolArgScan (.obj c2Input) priorityKeys else Except.ok []).map
          (fun args => toolHeadSegs ++ args ++ [nlSeg]) :=
  ⟨C2_tool_args_priority.2.1 c2Input ["path"]
      ["command", "query", "pattern", "url"] ("file_path")
      (.str ("/a/b.txt")) rfl
      (by intro k' hk'; cases List.mem_singleton.mp hk'; rfl) rfl,
    C2_tool_args_priority.2.2 (.obj c2Input)⟩

/-- Claim C7: an `error` event always emits one indented body line
`<name>: <message>` — name defaulting to the literal `"Error"` when
`error.name` is absent, message being `error.data.message` or, when
absent, the stringified whole error object, truncated to 200 characters.
The last conjunct is the spec scenario
`{"type":"error","error":{"name":"Timeout"}}`, which renders `Timeout: `
followed by the stringified error object. -/
theorem C7_error_default_and_fallback :
    (∀ fs : List (String × JVal), fs.lookup ("data") = none →
        errorBody (.obj fs) = .ok [nlSeg, indentSeg,
          ⟨pyStr ((fs.lookup ("name")).getD (.str ("Error"))) ++ ": ",
            Style.add styRed styBright, ""⟩,
          ⟨safe_str (.str (pyStr (.obj fs))) (some 200), styRed, "\n"⟩])
    ∧ (∀ (fs gs : List (String × JVal)),
        fs.lookup ("data") = some (.obj gs) →
        errorBody (.obj fs) = .ok [nlSeg, indentSeg,
          ⟨pyStr ((fs.lookup ("name")).getD (.str ("Error"))) ++ ": ",
            Style.add styRed styBright, ""⟩,
          ⟨safe_str ((gs.lookup ("message")).getD (.str (pyStr (.obj fs))))
            (some 200), styRed, "\n"⟩])
    ∧ format_opencode_event c7Event false = .ok c7Segs := by
  refine ⟨?_, ?_, rfl⟩
  · intro fs h
    unfold errorBody
    rw [show JVal.get (.obj fs) ("name") (.str ("Error")) =
      .ok ((fs.lookup ("name")).getD (.str ("Error"))) from rfl, except_bind_ok]
    rw [show JVal.get (.obj fs) ("data") (.obj []) =
      .ok ((fs.lookup ("data")).getD (.obj [])) from rfl, except_bind_ok,
      h, Option.getD_none]
    rw [show JVal.get (.obj []) ("message") (.str (pyStr (.obj fs))) =
      .ok (.str (pyStr (.obj fs))) from rfl, except_bind_ok]
    rfl
  · intro fs gs h
    unfold errorBody
    rw [show JVal.get (.obj fs) ("name") (.str ("Error")) =
      .ok ((fs.lookup ("name")).getD (.str ("Error"))) from rfl, except_bind_ok]
    rw [show JVal.get (.obj fs) ("data") (.obj []) =
      .ok ((fs.lookup ("data")).getD (.obj [])) from rfl, except_bind_ok,
      h, Option.getD_some]
    rw [show JVal.get (.obj gs) ("message") (.str (pyStr (.obj fs))) =
      .ok ((gs.lookup ("message")).getD (.str (pyStr (.obj fs)))) from rfl,
      except_bind_ok]
    rfl

/-- Witness for claim C7: the Timeout error payload has no `data` key, so
the message falls back to the stringified error object. -/
theorem C7_witness :
    errorBody (.obj [("name", JVal.str ("Timeout"))]) = .ok [nlSeg, indentSeg,
      ⟨pyStr ((([("name", JVal.str ("Timeout"))] :
          List (String × JVal)).lookup ("name")).getD (.str ("Error"))) ++ ": ",
        Style.add styRed styBright, ""⟩,
      ⟨safe_str (.str (pyStr (.obj [("name", JVal.str ("Timeout"))])))
        (some 200), styRed, "\n"⟩] :=
  C7_error_default_and_fallback.1 [("name", JVal.str ("Timeout"))] rfl

/-- Claim C10: an event object without a top-level `type` key is rendered
exactly as if its type were the literal string `"unknown"`; that kind maps
to the fallback icon `⏺` with the muted style, its title-cased label is
`Unknown`, and the unrecognized-kind body rule applies (by the equality of
the full renderings). -/
theorem C10_missing_type_defaults :
    ∀ (fs : List (String × JVal)) (d : Bool), fs.lookup ("type") = none →
      (format_opencode_event (.obj fs) d =
          format_opencode_event (.obj (("type", JVal.str ("unknown")) :: fs)) d)
      ∧ get_event_style (.str ("unknown")) = ("⏺", styDim)
      ∧ pyReplaceUS (.str ("unknown")) = .ok ("unknown")
      ∧ pyTitle ("unknown") = "Unknown" := by
  intro fs d h
  refine ⟨?_, rfl, rfl, rfl⟩
  have hL : JVal.get (.obj fs) ("type") (.str ("unknown")) =
      .ok (.str ("unknown")) := by
    rw [show JVal.get (.obj fs) ("type") (.str ("unknown")) =
      .ok ((fs.lookup ("type")).getD (.str ("unknown"))) from rfl, h,
      Option.getD_none]
  have hR : JVal.get (.obj (("type", JVal.str ("unknown")) :: fs)) ("type")
      (.str ("unknown")) = .ok (.str ("unknown")) := rfl
  have hk : ∀ (k : String) (dflt : JVal), (k == "type") = false →
      JVal.get (.obj (("type", JVal.str ("unknown")) :: fs)) k dflt =
        JVal.get (.obj fs) k dflt := by
    intro k dflt hkk
    show Except.ok (((("type", JVal.str ("unknown")) :: fs).lookup k).getD dflt)
      = JVal.get (.obj fs) k dflt
    simp only [List.lookup, hkk]
    rfl
  unfold format_opencode_event
  rw [hL, hR, hk ("timestamp") _ (by decide), hk ("sessionID") _ (by decide),
    hk ("part") _ (by decide), hk ("error") _ (by decide)]

/-- Witness for claim C10: a concrete event object with a `part` payload
and no `type` key. -/
theorem C10_witness :
    c10Fields.lookup ("type") = none
    ∧ format_opencode_event (.obj c10Fields) false =
        format_opencode_event
          (.obj (("type", JVal.str ("unknown")) :: c10Fields)) false :=
  ⟨rfl, (C10_missing_type_defaults c10Fields false rfl).1⟩

/-- Claim C3: a line the decoder rejects never aborts the stream: its
processing reduces to the `Parse Error` block (header, one indented line
with the first 80 characters of the offending line plus the ellipsis
marker, and the trailing blank line) prepended to the processing of the
remaining lines.  The concrete conjuncts run the spec scenario
`not json at all` and exhibit the exact block text. -/
theorem C3_parse_error_recovery :
    (∀ (decode : String → Option JVal) (debug : Bool) (line : String)
        (rest : List String),
        pyStrip line ≠ "" → decode (pyStrip line) = none →
        process_stream decode debug (line :: rest) =
          (process_stream decode debug rest).map
            (fun segs => parseErrorSegs (pyStrip line) ++ segs))
    ∧ process_stream (fun _ => none) false (["not json at all"]) =
        .ok (parseErrorSegs ("not json at all"))
    ∧ renderText (parseErrorSegs ("not json at all")) =
        "⏺ Parse Error\n  ⎿  not json at all...\n\n" := by
  refine ⟨?_, rfl, by decide⟩
  intro decode debug line rest hne hdec
  simp only [process_stream]
  rw [if_neg hne, hdec]
  cases hres : process_stream decode debug rest with
  | error e => rfl
  | ok segs => rfl

/-- Witness for claim C3: a failing line followed by another line — the
parse-error block is emitted and processing continues with the rest. -/
theorem C3_witness :
    process_stream (fun _ => none) false ("not json at all" :: ["x"]) =
      (process_stream (fun _ => none) false ["x"]).map
        (fun segs => parseErrorSegs (pyStrip ("not json at all")) ++ segs) :=
  C3_parse_error_recovery.1 (fun _ => none) false ("not json at all") ["x"]
    (by decide) rfl

end Viz
